import Mathlib

/-!
Verification of the order-processing core of the `otel-ecommerce` repository.

The JavaScript sources under `src/api/src` are shallowly embedded here:
the relational store, the cache, the inventory service
(`services/inventory.js`), the payment simulation (`services/payment.js`),
the order routes (`routes/orders.js`) and the error middleware
(`middleware/errorHandler.js`) become pure Lean functions over an explicit
`Store` state.  Database rows are association lists, SQL statements become
lookups and guarded updates, a transaction's ROLLBACK is modelled by
returning the pre-transaction table, and the random payment gateway is an
explicit `PaymentOutcome` oracle passed to the workflow.  JavaScript
numbers are IEEE-754 binary64 values; they are embedded as the exact
rational each double denotes, with an explicit `round64` rounding function
(round to nearest, ties to even, 53-bit significand) applied wherever the
source performs a floating-point operation.  Telemetry calls
(`withSpan`, `addEvent`, `span.setAttribute`, logging) carry no program
state and are not modelled; the externally observable service calls that
the claims mention are recorded in an explicit event trace.
-/

set_option maxRecDepth 8000

deriving instance DecidableEq for Except

namespace OtelShop

/-! ### Association-list primitives

`SELECT ... WHERE id = $1` on a keyed table is a first-match lookup;
`UPDATE ... WHERE id = $2` updates every row whose key matches. -/

/-- First-match lookup by integer key, as `SELECT ... WHERE id = $1 LIMIT`
semantics on a keyed table (primary keys are unique in the schema, so the
first match is the only match on well-formed tables). -/
def lookupId {α : Type} (k : ℤ) : List (ℤ × α) → Option α
  | [] => none
  | (k₂, v) :: rest => if k = k₂ then some v else lookupId k rest

/-- Update every row whose key matches, as `UPDATE ... WHERE id = $2`
semantics. -/
def updateId {α : Type} (k : ℤ) (f : α → α) : List (ℤ × α) → List (ℤ × α)
  | [] => []
  | (k₂, v) :: rest => (if k₂ = k then (k₂, f v) else (k₂, v)) :: updateId k f rest

theorem lookupId_updateId {α : Type} (k : ℤ) (f : α → α) (l : List (ℤ × α)) :
    lookupId k (updateId k f l) = (lookupId k l).map f := by
  induction l with
  | nil => rfl
  | cons p rest ih =>
    obtain ⟨k₃, v⟩ := p
    rw [updateId]
    split
    · next h =>
      subst h
      simp [lookupId]
    · next h =>
      have h₂ : ¬ k = k₃ := fun hk => h hk.symm
      simp only [lookupId, if_neg h₂]
      exact ih

theorem lookupId_updateId_ne {α : Type} (k k₂ : ℤ) (f : α → α) (l : List (ℤ × α))
    (h : k₂ ≠ k) : lookupId k₂ (updateId k f l) = lookupId k₂ l := by
  induction l with
  | nil => rfl
  | cons p rest ih =>
    obtain ⟨k₃, v⟩ := p
    rw [updateId]
    split
    · next hp =>
      have h₂ : ¬ k₂ = k₃ := fun he => h (he.trans hp)
      simp only [lookupId, if_neg h₂]
      exact ih
    · next hp =>
      by_cases he : k₂ = k₃
      · simp only [lookupId, if_pos he]
      · simp only [lookupId, if_neg he]
        exact ih

/-! ### Exact rational arithmetic helpers

The standard `Rat` arithmetic operations are `@[irreducible]`, which stops
witnesses from being checked by evaluation.  `qadd`/`qmul` below are the
same rational operations written through the reducible `Rat.normalize`,
with bridge lemmas proving they agree with `+` and `*` on `ℚ`. -/

/-- A rational from an integer. -/
def qofInt (n : ℤ) : ℚ := ⟨n, 1, Nat.one_ne_zero, Nat.coprime_one_right _⟩

/-- Rational multiplication through `Rat.normalize`. -/
def qmul (a b : ℚ) : ℚ :=
  Rat.normalize (a.num * b.num) (a.den * b.den) (Nat.mul_ne_zero a.den_nz b.den_nz)

/-- Rational addition through `Rat.normalize`. -/
def qadd (a b : ℚ) : ℚ :=
  Rat.normalize (a.num * b.den + b.num * a.den) (a.den * b.den)
    (Nat.mul_ne_zero a.den_nz b.den_nz)

/-- Doubling through `Rat.normalize`. -/
def qdouble (a : ℚ) : ℚ := Rat.normalize (2 * a.num) a.den a.den_nz

/-- Halving through `Rat.normalize`. -/
def qhalf (a : ℚ) : ℚ :=
  Rat.normalize a.num (2 * a.den) (Nat.mul_ne_zero (by decide) a.den_nz)

theorem qmul_eq (a b : ℚ) : qmul a b = a * b := (Rat.mul_def a b).symm

theorem qadd_eq (a b : ℚ) : qadd a b = a + b := (Rat.add_def a b).symm

theorem qofInt_eq (n : ℤ) : qofInt n = (n : ℚ) := rfl

/-! ### IEEE-754 binary64 model

JavaScript numbers are binary64 doubles.  Every finite double is a
rational; `round64` maps an exact rational result onto the double the
hardware would produce (round to nearest, ties to even, 53-bit
significand).  Overflow to infinity and subnormal underflow are outside
the magnitudes this program manipulates and are not modelled.  The
comparisons against the significand range are done on numerator and
denominator directly (for a positive rational `a` and an integer bound
`t`, `a < t ↔ a.num < t * a.den`). -/

/-- Lower bound of the binary64 normalised significand range, `2 ^ 52`. -/
def twoPow52 : ℤ := 4503599627370496

/-- Upper bound of the binary64 normalised significand range, `2 ^ 53`. -/
def twoPow53 : ℤ := 9007199254740992

/-- Scale a positive rational up by powers of two until it reaches
`[2^52, ∞)`; returns the scaled value and the reciprocal of the scale
factor used. -/
def normUp : ℕ → ℚ → ℚ → ℚ × ℚ
  | 0, m, sInv => (m, sInv)
  | fuel + 1, m, sInv =>
      if m.num < twoPow52 * (m.den : ℤ) then normUp fuel (qdouble m) (qhalf sInv)
      else (m, sInv)

/-- Scale a rational down by powers of two until it falls below `2^53`;
returns the scaled value and the reciprocal of the scale factor used. -/
def normDown : ℕ → ℚ → ℚ → ℚ × ℚ
  | 0, m, sInv => (m, sInv)
  | fuel + 1, m, sInv =>
      if twoPow53 * (m.den : ℤ) ≤ m.num then normDown fuel (qhalf m) (qdouble sInv)
      else (m, sInv)

/-- Round a positive rational to the nearest 53-bit-significand dyadic
rational, ties to even: the binary64 rounding of a positive real.  The
scaled significand `m` is split as `m.num = fl * m.den + r` with
`0 ≤ r < m.den`; the fractional part `r / m.den` is compared with `1/2` by
comparing `2 * r` with `m.den`. -/
def roundPos (q : ℚ) : ℚ :=
  let p₁ := normUp 1200 q (qofInt 1)
  let p₂ := normDown 1200 p₁.1 p₁.2
  let m := p₂.1
  let sInv := p₂.2
  let fl : ℤ := m.num / (m.den : ℤ)
  let r : ℤ := m.num % (m.den : ℤ)
  let n : ℤ :=
    if 2 * r < (m.den : ℤ) then fl
    else if (m.den : ℤ) < 2 * r then fl + 1
    else if fl % 2 = 0 then fl else fl + 1
  qmul (qofInt n) sInv

/-- Binary64 rounding of an exact rational: the double produced by a
JavaScript arithmetic operation whose exact result is `q`. -/
def round64 (q : ℚ) : ℚ :=
  if q.num = 0 then 0 else if q.num < 0 then -(roundPos (-q)) else roundPos q

/-! ### Data model

Rows of the four tables from `scripts/setup-database`-style schema:
`users`, `products`, `orders`, `order_items`.  `DECIMAL(10,2)` columns
(`price`, `total_amount`) reach JavaScript as decimal strings from the pg
driver; they are embedded as the exact rational the string denotes.
`stock_quantity` is an `INTEGER` column with no CHECK constraint, so it is
embedded as `ℤ` and non-negativity is a provable invariant, not a type. -/

structure User where
  email : String
  name : String
deriving DecidableEq

structure Product where
  sku : String
  name : String
  price : ℚ
  stock_quantity : ℤ
deriving DecidableEq

structure OrderRow where
  user_id : ℤ
  status : String
  total_amount : ℚ
  payment_method : String
  payment_status : String
deriving DecidableEq

structure OrderItemRow where
  order_id : ℤ
  product_id : ℤ
  quantity : ℤ
  price : ℚ
deriving DecidableEq

/-- One entry of a `POST /api/orders` items array. -/
structure Item where
  productId : ℤ
  quantity : ℤ
deriving DecidableEq

/-- Body of a `POST /api/orders` request, after the express-validator
middleware has accepted it (integer ids, integer quantities, payment
method from the fixed set). -/
structure CreateReq where
  userId : ℤ
  items : List Item
  paymentMethod : String
deriving DecidableEq

/-- Per-item result object pushed by `checkInventory`.  The JavaScript
object for a missing product is `{productId, available: false, reason}`
while the object for a found product is
`{productId, sku, name, requested, available: stock, sufficient}`; the
single dynamically-typed `available` field is split into `availableFlag`
(the boolean form) and `availableQty` (the numeric form), and absent
fields are `none`. -/
structure CheckEntry where
  productId : ℤ
  sku : Option String
  name : Option String
  requested : Option ℤ
  availableFlag : Option Bool
  availableQty : Option ℤ
  sufficient : Option Bool
  reason : Option String
deriving DecidableEq

/-- Result of `checkInventory`. -/
structure CheckResult where
  available : Bool
  items : List CheckEntry
deriving DecidableEq

/-- JavaScript `Error` object as thrown by this code base: `message` plus
the optional `code`, `statusCode`, `details` and `reason` properties the
routes attach. -/
structure JsError where
  message : String
  code : Option String
  statusCode : Option ℤ
  details : Option (List CheckEntry)
  reason : Option String
deriving DecidableEq

/-- Cache is the redis key space: keys to serialized values
(`JSON.stringify` output).  First-match lookup with cons-on-set models
`setEx` overwrite. -/
abbrev Cache : Type := List (String × List Char)

/-- Whole mutable state: the four tables, the `SERIAL` order-id counter
and the redis key space. -/
structure Store where
  users : List (ℤ × User)
  products : List (ℤ × Product)
  orders : List (ℤ × OrderRow)
  orderItems : List OrderItemRow
  nextOrderId : ℤ
  cache : Cache
deriving DecidableEq

/-- Stock of product `pid` as currently recorded in a products table. -/
def stockOf (prods : List (ℤ × Product)) (pid : ℤ) : Option ℤ :=
  (lookupId pid prods).map Product.stock_quantity

/-! ### Cache primitives (`services/cache.js`) -/

/-- Redis `setEx`: store the serialized value under the key. -/
def cacheSet (k : String) (v : List Char) (c : Cache) : Cache := (k, v) :: c

/-- Redis `get`: first match for the key. -/
def cacheGet (k : String) : Cache → Option (List Char)
  | [] => none
  | (k₂, v) :: rest => if k = k₂ then some v else cacheGet k rest

/-- Redis `del key`. -/
def cacheDel (k : String) (c : Cache) : Cache :=
  c.filter (fun p => decide (p.1 ≠ k))

/-- Redis `keys pattern` + `del`, for the one pattern the code uses
(`products:*`): drop every key with the given text before the `*`. -/
def cacheDelPat (pre : String) (c : Cache) : Cache :=
  c.filter (fun p => ! pre.isPrefixOf p.1)

/-! ### Inventory service (`services/inventory.js`) -/

/-- Error thrown by `reserveInventory` when the conditional `UPDATE`
matches no row: plain `Error`, no `code`, no `statusCode`. -/
def reserveErr (pid : ℤ) : JsError :=
  ⟨"Failed to reserve inventory for product " ++ toString pid ++ ": insufficient stock",
    none, none, none, none⟩

/-- One iteration of the `checkInventory` loop: `SELECT` the product, push
either the `product_not_found` object or the sufficiency object. -/
def checkOne (prods : List (ℤ × Product)) (i : Item) : CheckEntry :=
  match lookupId i.productId prods with
  | none =>
      ⟨i.productId, none, none, none, some false, none, none, some "product_not_found"⟩
  | some p =>
      ⟨i.productId, some p.sku, some p.name, some i.quantity, none,
        some p.stock_quantity, some (decide (i.quantity ≤ p.stock_quantity)), none⟩

/-- JavaScript truthiness of the `sufficient` property:
`undefined` is falsy. -/
def sufficientTruthy (e : CheckEntry) : Bool := e.sufficient.getD false

/-- Loop body aggregate of `checkInventory`:
`available` is `results.every((r) => r.sufficient)`. -/
def checkItems (prods : List (ℤ × Product)) (items : List Item) : CheckResult :=
  let results := items.map (checkOne prods)
  ⟨results.all sufficientTruthy, results⟩

/-- `checkInventory(items)`: read-only availability report over the
current table; performs no mutation, so the store passes through. -/
def checkInventory (items : List Item) (st : Store) : CheckResult × Store :=
  (checkItems st.products items, st)

/-- Per-item body of the `reserveInventory` transaction: the conditional
`UPDATE products SET stock_quantity = stock_quantity - $1 WHERE id = $2
AND stock_quantity >= $1`, throwing when no row matches, then the two
cache invalidations.  Returns the evolving products table on success; the
cache is threaded through unconditionally because redis operations are
outside the SQL transaction and survive a ROLLBACK. -/
def decStock (q : ℤ) (p : Product) : Product :=
  ⟨p.sku, p.name, p.price, p.stock_quantity - q⟩

def incStock (q : ℤ) (p : Product) : Product :=
  ⟨p.sku, p.name, p.price, p.stock_quantity + q⟩

def reserveLoop : List Item → List (ℤ × Product) → Cache →
    (Except JsError (List (ℤ × Product))) × Cache
  | [], prods, c => (.ok prods, c)
  | i :: rest, prods, c =>
      match lookupId i.productId prods with
      | none => (.error (reserveErr i.productId), c)
      | some p =>
          if i.quantity ≤ p.stock_quantity then
            let prods₂ := updateId i.productId (decStock i.quantity) prods
            let c₂ := cacheDelPat "products:"
              (cacheDel ("product:" ++ toString i.productId) c)
            reserveLoop rest prods₂ c₂
          else (.error (reserveErr i.productId), c)

/-- `reserveInventory(orderId, items)`: run the decrement loop inside a
transaction; on any failure ROLLBACK restores the products table (but not
the cache deletions already performed) and the error propagates. -/
def reserveInventory (_orderId : ℤ) (items : List Item) (st : Store) :
    (Except JsError Unit) × Store :=
  match reserveLoop items st.products st.cache with
  | (.ok prods₂, c₂) => (.ok (), { st with products := prods₂, cache := c₂ })
  | (.error e, c₂) => (.error e, { st with cache := c₂ })

/-- Per-item body of the `releaseInventory` transaction: the unconditional
`UPDATE products SET stock_quantity = stock_quantity + $1 WHERE id = $2`
(a missing product matches no row and is a no-op), then the cache
invalidations. -/
def releaseLoop : List Item → List (ℤ × Product) → Cache →
    (List (ℤ × Product)) × Cache
  | [], prods, c => (prods, c)
  | i :: rest, prods, c =>
      let prods₂ := updateId i.productId (incStock i.quantity) prods
      let c₂ := cacheDelPat "products:"
        (cacheDel ("product:" ++ toString i.productId) c)
      releaseLoop rest prods₂ c₂

/-- `releaseInventory(orderId, items)`: compensating increment per item;
nothing in the loop can throw, so the transaction always commits. -/
def releaseInventory (_orderId : ℤ) (items : List Item) (st : Store) : Store :=
  let p := releaseLoop items st.products st.cache
  { st with products := p.1, cache := p.2 }

/-- Result object of `getInventoryLevel`. -/
structure LevelResult where
  productId : ℤ
  sku : String
  name : String
  stockQuantity : ℤ
deriving DecidableEq

/-- `getInventoryLevel(productId)`: point read, throws a plain `Error`
when the product does not exist. -/
def getInventoryLevel (pid : ℤ) (st : Store) : (Except JsError LevelResult) × Store :=
  match lookupId pid st.products with
  | none => (.error ⟨"Product " ++ toString pid ++ " not found", none, none, none, none⟩, st)
  | some p => (.ok ⟨pid, p.sku, p.name, p.stock_quantity⟩, st)

/-! ### Payment service (`services/payment.js`)

`processPayment` draws a random delay and a random 10% failure; delay is
irrelevant to state and the coin flip is passed in as an explicit
`PaymentOutcome` oracle (including the decline reason the source would
pick), which is the only information the random draws feed into the
result. -/

/-- Resolution of the simulated gateway's random draw for one call. -/
inductive PaymentOutcome
  | success (transactionId : String)
  | failure (reason : String)
deriving DecidableEq

/-- Success object returned by `processPayment`. -/
structure PaymentResult where
  success : Bool
  transactionId : String
  amount : ℚ
  paymentMethod : String
deriving DecidableEq

/-- Error thrown by `processPayment` on a declined payment. -/
def payErr (reason : String) : JsError :=
  ⟨"Payment failed: " ++ reason, some "PAYMENT_FAILED", none, none, some reason⟩

/-- `processPayment(orderId, amount, paymentMethod)` under a fixed random
outcome. -/
def processPayment (_orderId : ℤ) (amount : ℚ) (method : String)
    (o : PaymentOutcome) : Except JsError PaymentResult :=
  match o with
  | .success tx => .ok ⟨true, tx, amount, method⟩
  | .failure r => .error (payErr r)

/-! ### Order creation workflow (`routes/orders.js`, `POST /`) -/

/-- Error thrown in step 1 when the user row is missing. -/
def userNotFoundErr : JsError := ⟨"User not found", some "NOT_FOUND", some 404, none, none⟩

/-- Error thrown in step 2 when a product row is missing. -/
def productNotFoundErr (pid : ℤ) : JsError :=
  ⟨"Product " ++ toString pid ++ " not found", some "NOT_FOUND", some 404, none, none⟩

/-- Error thrown in step 3, carrying the offending check entries as
`error.details`. -/
def insufficientErr (unavailable : List CheckEntry) : JsError :=
  ⟨"Insufficient inventory for one or more items", some "INSUFFICIENT_INVENTORY",
    some 409, some unavailable, none⟩

/-- Error for the unreachable case that the freshly inserted order row is
not found by the step-7 read-back join. -/
def hydrateErr : JsError := ⟨"Order row missing after creation", none, none, none, none⟩

/-- Entry of `productDetails` built by step 2: the item spread together
with the product's `price` (the exact decimal delivered as a string by the
driver), `name`, `sku` and the binary64 product
`parseFloat(product.price) * item.quantity`. -/
structure Detail where
  productId : ℤ
  quantity : ℤ
  price : ℚ
  name : String
  sku : String
  itemTotal : ℚ
deriving DecidableEq

/-- Step-2 loop of the handler: look up each product (404 on a miss),
build `productDetails`, and accumulate
`totalAmount += parseFloat(product.price) * item.quantity` in binary64
arithmetic: `parseFloat` of the decimal string is `round64` of the exact
decimal, the multiplication rounds once (integer quantities below `2^53`
convert exactly), and each `+=` rounds once. -/
def buildDetails (prods : List (ℤ × Product)) :
    List Item → ℚ → List Detail → Except JsError (List Detail × ℚ)
  | [], total, acc => .ok (acc.reverse, total)
  | i :: rest, total, acc =>
      match lookupId i.productId prods with
      | none => .error (productNotFoundErr i.productId)
      | some p =>
          let itemTotal := round64 (qmul (round64 p.price) (qofInt i.quantity))
          buildDetails prods rest (round64 (qadd total itemTotal))
            (⟨i.productId, i.quantity, p.price, p.name, p.sku, itemTotal⟩ :: acc)

/-- Running binary64 total of step 2, without the detail bookkeeping:
specification of the accumulator that `buildDetails` threads. -/
def fpSum (prods : List (ℤ × Product)) : List Item → ℚ → ℚ
  | [], t => t
  | i :: rest, t =>
      match lookupId i.productId prods with
      | none => t
      | some p =>
          fpSum prods rest (round64 (qadd t (round64 (qmul (round64 p.price) (qofInt i.quantity)))))

/-- Modelled from the spec: the exact fixed-point decimal total
`Σ (unit price × quantity)` that the specification asserts the code
computes, in plain `ℚ` arithmetic (missing products contribute nothing;
under the claims' hypotheses every product is present). -/
def exactSum (prods : List (ℤ × Product)) : List Item → ℚ
  | [] => 0
  | i :: rest =>
      (match lookupId i.productId prods with
        | none => 0
        | some p => p.price * (i.quantity : ℚ)) + exactSum prods rest

/-- Evaluation form of `exactSum`, written through `qadd`/`qmul` so that
witnesses can be checked by `decide`. -/
def exactSumE (prods : List (ℤ × Product)) : List Item → ℚ
  | [] => 0
  | i :: rest =>
      qadd
        (match lookupId i.productId prods with
          | none => 0
          | some p => qmul p.price (qofInt i.quantity))
        (exactSumE prods rest)

theorem exactSumE_eq (prods : List (ℤ × Product)) :
    ∀ items, exactSumE prods items = exactSum prods items := by
  intro items
  induction items with
  | nil => rfl
  | cons i rest ih =>
    rw [exactSumE, exactSum, qadd_eq, ih]
    cases lookupId i.productId prods with
    | none => rfl
    | some p =>
      show qmul p.price (qofInt i.quantity) + exactSum prods rest = _
      rw [qmul_eq, qofInt_eq]

/-- Externally observable service milestones of one `POST /orders`
execution, in program order. -/
inductive Ev
  | orderCreated (orderId : ℤ)
  | inventoryReserved
  | reserveFailed
  | paymentAttempted
  | inventoryReleased
deriving DecidableEq

/-- Success payload of `POST /orders` (status 201): the read-back order
row joined with the user, the `productDetails` array and the payment
result. -/
structure CreateResp where
  orderId : ℤ
  order : OrderRow
  email : String
  userName : String
  items : List Detail
  payment : PaymentResult
deriving DecidableEq

/-- Order-row effect of `UPDATE orders SET status = 'failed'` after a
reservation failure. -/
def setFailed (o : OrderRow) : OrderRow := { o with status := "failed" }

/-- Order-row effect of `UPDATE orders SET payment_status = 'completed',
status = 'confirmed'` after a successful payment. -/
def setConfirmed (o : OrderRow) : OrderRow :=
  { o with payment_status := "completed", status := "confirmed" }

/-- Order-row effect of `UPDATE orders SET payment_status = 'failed',
status = 'cancelled'` after a failed payment. -/
def setCancelled (o : OrderRow) : OrderRow :=
  { o with payment_status := "failed", status := "cancelled" }

/-- Apply an `UPDATE orders ... WHERE id = $n` to the store. -/
def markOrder (oid : ℤ) (f : OrderRow → OrderRow) (st : Store) : Store :=
  { st with orders := updateId oid f st.orders }

/-- Two-decimal rounding of a rational with nonnegative numerator:
`round(100 q) / 100` with ties rounded up, written through integer
division on the numerator and denominator so it evaluates in the
kernel. -/
def dec2pos (q : ℚ) : ℚ :=
  Rat.normalize
    (if (q.den : ℤ) ≤ 2 * (100 * q.num % (q.den : ℤ))
      then 100 * q.num / (q.den : ℤ) + 1
      else 100 * q.num / (q.den : ℤ)) 100

/-- The `DECIMAL(10, 2)` quantization the `orders.total_amount` and
`order_items.price` columns of `database/init.sql` apply on insert: the
driver serialises the JavaScript double and PostgreSQL casts the decimal
string to `numeric(10, 2)`, rounding to two decimal places, ties half
away from zero. -/
def dec2 (q : ℚ) : ℚ :=
  if q.num < 0 then -dec2pos (-q) else dec2pos q

/-- Step 4 of the handler, the order-insert transaction: one `INSERT INTO
orders ... RETURNING id` (the `SERIAL` counter supplies the id) and one
`INSERT INTO order_items` per product detail; nothing in it can fail in
the model, so it always commits.  The inserted numeric values pass
through the `DECIMAL(10, 2)` columns of the schema, so the rows persist
their `dec2` quantization.  Returns the new order id and the store after
the commit. -/
def insertOrderTx (st : Store) (req : CreateReq) (details : List Detail)
    (totalAmount : ℚ) : ℤ × Store :=
  (st.nextOrderId,
    { st with
        orders := (st.nextOrderId,
          ⟨req.userId, "pending", dec2 totalAmount, req.paymentMethod, "pending"⟩) :: st.orders,
        orderItems := st.orderItems ++ details.map
          (fun d => (⟨st.nextOrderId, d.productId, d.quantity, dec2 d.price⟩ : OrderItemRow)),
        nextOrderId := st.nextOrderId + 1 })

/-- The `POST /orders` handler: validate user (step 1), price the items
(step 2), advisory availability check (step 3), insert the order and its
items in one transaction (step 4; nothing in the model can fail inside
it), reserve inventory in its own transaction marking the order `failed`
on error (step 5), then the payment step with compensation (step 6) and
the read-back response (step 7). -/
def createOrder (st : Store) (req : CreateReq) (pay : PaymentOutcome) :
    (Except JsError CreateResp) × Store × List Ev :=
  match lookupId req.userId st.users with
  | none => (.error userNotFoundErr, st, [])
  | some _ =>
      match buildDetails st.products req.items 0 [] with
      | .error e => (.error e, st, [])
      | .ok (details, totalAmount) =>
          let chk := (checkInventory req.items st).1
          if chk.available then
            let p := insertOrderTx st req details totalAmount
            let orderId := p.1
            let st₁ := p.2
            match reserveInventory orderId req.items st₁ with
            | (.error e, st₂) =>
                (.error e, markOrder orderId setFailed st₂,
                  [.orderCreated orderId, .reserveFailed])
            | (.ok _, st₂) =>
                match processPayment orderId totalAmount req.paymentMethod pay with
                | .ok payRes =>
                    let st₃ := markOrder orderId setConfirmed st₂
                    match lookupId orderId st₃.orders, lookupId req.userId st₃.users with
                    | some finalRow, some u₂ =>
                        (.ok ⟨orderId, finalRow, u₂.email, u₂.name, details, payRes⟩, st₃,
                          [.orderCreated orderId, .inventoryReserved, .paymentAttempted])
                    | _, _ =>
                        (.error hydrateErr, st₃,
                          [.orderCreated orderId, .inventoryReserved, .paymentAttempted])
                | .error pe =>
                    let st₄ := markOrder orderId setCancelled
                      (releaseInventory orderId req.items st₂)
                    (.error pe, st₄,
                      [.orderCreated orderId, .inventoryReserved, .paymentAttempted,
                        .inventoryReleased])
          else
            (.error (insufficientErr (chk.items.filter (fun e => ! sufficientTruthy e))),
              st, [])

/-! ### Error middleware (`middleware/errorHandler.js`) -/

/-- Response produced by `errorHandler`: HTTP status, body `message` and
`code`, and whether a `stack` property is present in the body. -/
structure ErrResponse where
  status : ℤ
  bodyMessage : String
  bodyCode : String
  hasStack : Bool
deriving DecidableEq

/-- The global error middleware: status from
`err.statusCode || 500` (JavaScript `||`, so an explicit `0` also falls
back) overridden for the four recognised codes; body code from
`err.code || 'INTERNAL_ERROR'`; the stack is spread into the body exactly
when `NODE_ENV === 'development'`. -/
def errorHandler (e : JsError) (env : String) : ErrResponse :=
  let base : ℤ :=
    match e.statusCode with
    | none => 500
    | some sc => if sc = 0 then 500 else sc
  let status : ℤ :=
    if e.code = some "PAYMENT_FAILED" then 422
    else if e.code = some "INSUFFICIENT_INVENTORY" then 409
    else if e.code = some "NOT_FOUND" then 404
    else if e.code = some "VALIDATION_ERROR" then 400
    else base
  let bodyCode :=
    match e.code with
    | none => "INTERNAL_ERROR"
    | some c => if c = "" then "INTERNAL_ERROR" else c
  ⟨status, e.message, bodyCode, decide (env = "development")⟩

/-- Every error value this code base constructs and lets reach the HTTP
error middleware, by construction site. -/
inductive RepoError
  | userNotFound
  | productNotFound (pid : ℤ)
  | insufficientInventory (unavailable : List CheckEntry)
  | reserveFailure (pid : ℤ)
  | paymentFailure (reason : String)
  | invalidOrderId
  | orderNotFound
  | invalidUserId
  | levelNotFound (pid : ℤ)
  | internalFailure (msg : String)

/-- The `Error` object each construction site throws.  `invalidOrderId`,
`orderNotFound` and `invalidUserId` are from the two GET routes;
`levelNotFound` is `getInventoryLevel`'s plain error; `internalFailure`
stands for an unexpected database/cache/driver error, which carries
neither `code` nor `statusCode`. -/
def RepoError.toJs : RepoError → JsError
  | .userNotFound => userNotFoundErr
  | .productNotFound pid => productNotFoundErr pid
  | .insufficientInventory unavailable => insufficientErr unavailable
  | .reserveFailure pid => reserveErr pid
  | .paymentFailure reason => payErr reason
  | .invalidOrderId => ⟨"Invalid order ID", some "VALIDATION_ERROR", some 400, none, none⟩
  | .orderNotFound => ⟨"Order not found", some "NOT_FOUND", some 404, none, none⟩
  | .invalidUserId => ⟨"Invalid user ID", some "VALIDATION_ERROR", some 400, none, none⟩
  | .levelNotFound pid =>
      ⟨"Product " ++ toString pid ++ " not found", none, none, none, none⟩
  | .internalFailure msg => ⟨msg, none, none, none, none⟩

/-- Modelled from the spec: the status the claim assigns to each error
code — 422, 409, 404, 400 for the four recognised codes, else 500. -/
def claimStatus (code : Option String) : ℤ :=
  if code = some "PAYMENT_FAILED" then 422
  else if code = some "INSUFFICIENT_INVENTORY" then 409
  else if code = some "NOT_FOUND" then 404
  else if code = some "VALIDATION_ERROR" then 400
  else 500

/-! ### Stock-accounting lemmas for the inventory loops -/

/-- Total quantity an items list requests for one product; duplicates of
the same product accumulate, matching the per-statement SQL semantics of
the reservation loop. -/
def sumQ (pid : ℤ) : List Item → ℤ
  | [] => 0
  | i :: rest => (if i.productId = pid then i.quantity else 0) + sumQ pid rest

theorem updateId_keys {α : Type} (k : ℤ) (f : α → α) (l : List (ℤ × α)) :
    (updateId k f l).map Prod.fst = l.map Prod.fst := by
  induction l with
  | nil => rfl
  | cons p rest ih =>
    obtain ⟨k₂, v⟩ := p
    rw [updateId]
    split <;> simp [ih]

theorem updateId_of_not_mem {α : Type} (k : ℤ) (f : α → α) (l : List (ℤ × α))
    (h : k ∉ l.map Prod.fst) : updateId k f l = l := by
  induction l with
  | nil => rfl
  | cons p rest ih =>
    obtain ⟨k₂, v⟩ := p
    simp only [List.map_cons, List.mem_cons, not_or] at h
    rw [updateId, if_neg (fun he => h.1 he.symm), ih h.2]

theorem mem_updateId {α : Type} {k : ℤ} {f : α → α} {l : List (ℤ × α)} {e : ℤ × α}
    (h : e ∈ updateId k f l) : e ∈ l ∨ ∃ e₂, e₂ ∈ l ∧ e = (e₂.1, f e₂.2) := by
  induction l with
  | nil => cases h
  | cons p rest ih =>
    obtain ⟨k₂, v⟩ := p
    rw [updateId] at h
    rcases List.mem_cons.mp h with he | ht
    · revert he
      split
      · intro he
        exact Or.inr ⟨(k₂, v), List.mem_cons_self _ _, he⟩
      · intro he
        exact Or.inl (he ▸ List.mem_cons_self _ _)
    · rcases ih ht with h₁ | ⟨e₂, he₂, hf⟩
      · exact Or.inl (List.mem_cons_of_mem _ h₁)
      · exact Or.inr ⟨e₂, List.mem_cons_of_mem _ he₂, hf⟩

/-- Stock accounting of a successful reservation transaction: every
product line is decremented by the total quantity the items request for
it. -/
theorem reserveLoop_ok_lookup :
    ∀ (items : List Item) (prods : List (ℤ × Product)) (c : Cache)
      (prods₂ : List (ℤ × Product)) (c₂ : Cache),
      reserveLoop items prods c = (.ok prods₂, c₂) →
      ∀ pid, lookupId pid prods₂ = (lookupId pid prods).map (decStock (sumQ pid items)) := by
  intro items
  induction items with
  | nil =>
    intro prods c prods₂ c₂ h pid
    rw [reserveLoop] at h
    cases h
    cases lookupId pid prods <;> simp [decStock, sumQ]
  | cons i rest ih =>
    intro prods c prods₂ c₂ h pid
    cases hl : lookupId i.productId prods with
    | none => simp [reserveLoop, hl] at h
    | some p =>
      by_cases hg : i.quantity ≤ p.stock_quantity
      · simp only [reserveLoop, hl, if_pos hg] at h
        rw [ih _ _ _ _ h pid]
        by_cases hp : pid = i.productId
        · subst hp
          rw [lookupId_updateId, Option.map_map]
          have hs : sumQ i.productId (i :: rest) = i.quantity + sumQ i.productId rest := by
            rw [sumQ, if_pos rfl]
          rw [hs]
          cases lookupId i.productId prods with
          | none => rfl
          | some v =>
            simp only [Option.map_some', Function.comp_apply, Option.some.injEq, decStock,
              Product.mk.injEq]
            exact ⟨trivial, trivial, trivial, by omega⟩
        · rw [lookupId_updateId_ne _ _ _ _ hp]
          have hs : sumQ pid (i :: rest) = sumQ pid rest := by
            rw [sumQ, if_neg (fun hh => hp hh.symm), zero_add]
          rw [hs]
      · simp [reserveLoop, hl, if_neg hg] at h

/-- Stock accounting of a release: every product line is incremented by
the total quantity the items request for it. -/
theorem releaseLoop_lookup :
    ∀ (items : List Item) (prods : List (ℤ × Product)) (c : Cache) (pid : ℤ),
      lookupId pid (releaseLoop items prods c).1 =
        (lookupId pid prods).map (incStock (sumQ pid items)) := by
  intro items
  induction items with
  | nil =>
    intro prods c pid
    rw [releaseLoop]
    cases lookupId pid prods <;> simp [incStock, sumQ]
  | cons i rest ih =>
    intro prods c pid
    simp only [releaseLoop]
    rw [ih _ _ pid]
    by_cases hp : pid = i.productId
    · subst hp
      rw [lookupId_updateId, Option.map_map]
      have hs : sumQ i.productId (i :: rest) = i.quantity + sumQ i.productId rest := by
        rw [sumQ, if_pos rfl]
      rw [hs]
      cases lookupId i.productId prods with
      | none => rfl
      | some v =>
        simp only [Option.map_some', Function.comp_apply, Option.some.injEq, incStock,
          Product.mk.injEq]
        exact ⟨trivial, trivial, trivial, by omega⟩
    · rw [lookupId_updateId_ne _ _ _ _ hp]
      have hs : sumQ pid (i :: rest) = sumQ pid rest := by
        rw [sumQ, if_neg (fun hh => hp hh.symm), zero_add]
      rw [hs]

/-! ### Non-negativity invariant -/

/-- Every row of the products table records a non-negative stock. -/
def stocksNonneg (prods : List (ℤ × Product)) : Prop :=
  ∀ e ∈ prods, 0 ≤ (Prod.snd e).stock_quantity

/-- The primary-key property of the products table: ids are unique. -/
def keysNodup (prods : List (ℤ × Product)) : Prop :=
  (prods.map Prod.fst).Nodup

instance (prods : List (ℤ × Product)) : Decidable (stocksNonneg prods) := by
  unfold stocksNonneg
  exact List.decidableBAll _ _

instance (prods : List (ℤ × Product)) : Decidable (keysNodup prods) := by
  unfold keysNodup
  infer_instance

theorem stocksNonneg_updateId_dec (prods : List (ℤ × Product)) (pid q : ℤ) (p : Product)
    (hnd : keysNodup prods) (hl : lookupId pid prods = some p)
    (hq : q ≤ p.stock_quantity) (hn : stocksNonneg prods) :
    stocksNonneg (updateId pid (decStock q) prods) := by
  induction prods with
  | nil => intro e he; cases he
  | cons hd rest ih =>
    obtain ⟨k₂, v⟩ := hd
    rw [keysNodup, List.map_cons, List.nodup_cons] at hnd
    by_cases hk : k₂ = pid
    · subst hk
      rw [lookupId, if_pos rfl] at hl
      injection hl with hl
      subst hl
      rw [updateId, if_pos rfl, updateId_of_not_mem _ _ _ hnd.1]
      intro e he
      rcases List.mem_cons.mp he with he | he
      · subst he
        show 0 ≤ v.stock_quantity - q
        omega
      · exact hn e (List.mem_cons_of_mem _ he)
    · rw [lookupId, if_neg (fun hh => hk hh.symm)] at hl
      rw [updateId, if_neg hk]
      intro e he
      rcases List.mem_cons.mp he with he | he
      · subst he
        exact hn _ (List.mem_cons_self _ _)
      · exact ih hnd.2 hl (fun e₂ he₂ => hn e₂ (List.mem_cons_of_mem _ he₂)) e he

/-- A successful reservation keeps every stock non-negative: each
decrement is guarded by `stock_quantity >= $1`. -/
theorem reserveLoop_nonneg :
    ∀ (items : List Item) (prods : List (ℤ × Product)) (c : Cache)
      (prods₂ : List (ℤ × Product)) (c₂ : Cache),
      reserveLoop items prods c = (.ok prods₂, c₂) →
      keysNodup prods → stocksNonneg prods → stocksNonneg prods₂ := by
  intro items
  induction items with
  | nil =>
    intro prods c prods₂ c₂ h hnd hn
    rw [reserveLoop] at h
    cases h
    exact hn
  | cons i rest ih =>
    intro prods c prods₂ c₂ h hnd hn
    cases hl : lookupId i.productId prods with
    | none => simp [reserveLoop, hl] at h
    | some p =>
      by_cases hg : i.quantity ≤ p.stock_quantity
      · simp only [reserveLoop, hl, if_pos hg] at h
        refine ih _ _ _ _ h ?_ ?_
        · rw [keysNodup, updateId_keys]
          exact hnd
        · exact stocksNonneg_updateId_dec prods i.productId i.quantity p hnd hl hg hn
      · simp [reserveLoop, hl, if_neg hg] at h

/-- A release of non-negative quantities keeps every stock
non-negative. -/
theorem releaseLoop_nonneg :
    ∀ (items : List Item) (prods : List (ℤ × Product)) (c : Cache),
      (∀ i ∈ items, 0 ≤ i.quantity) → stocksNonneg prods →
      stocksNonneg (releaseLoop items prods c).1 := by
  intro items
  induction items with
  | nil => intro prods c _ hn; exact hn
  | cons i rest ih =>
    intro prods c hq hn
    rw [releaseLoop]
    refine ih _ _ (fun j hj => hq j (List.mem_cons_of_mem _ hj)) ?_
    intro e he
    rcases mem_updateId he with he₂ | ⟨e₂, he₂, hf⟩
    · exact hn e he₂
    · have h₁ := hn e₂ he₂
      have h₂ := hq i (List.mem_cons_self _ _)
      rw [hf]
      show 0 ≤ e₂.2.stock_quantity + i.quantity
      omega

/-! ### Witness fixture: a store shaped like the seeded database -/

/-- Exact decimal 1299.99, the seeded laptop price. -/
def priceLaptop : ℚ := ⟨129999, 100, by decide, by decide⟩

/-- Exact decimal 899.99, the seeded phone price. -/
def pricePhone : ℚ := ⟨89999, 100, by decide, by decide⟩

/-- Concrete store used by witnesses: two seeded users, two seeded
products (exact decimal prices, as the `DECIMAL(10,2)` column delivers),
no orders yet. -/
def wStore : Store :=
  ⟨[(1, ⟨"john@example.com", "John Doe"⟩), (2, ⟨"jane@example.com", "Jane Smith"⟩)],
   [(1, ⟨"LAPTOP-001", "Premium Laptop", priceLaptop, 50⟩),
    (2, ⟨"PHONE-001", "Smartphone Pro", pricePhone, 100⟩)],
   [], [], 1, []⟩

/-- C2: a single-item reservation of quantity `q` against recorded stock
`s` decrements to `s − q` exactly when `q ≤ s` (and then the resulting
stock is not below zero), and otherwise mutates nothing and fails with the
reservation error. -/
theorem c2_reserve_single_item (st : Store) (oid pid q : ℤ) (p : Product)
    (hl : lookupId pid st.products = some p) :
    (q ≤ p.stock_quantity →
      (reserveInventory oid [⟨pid, q⟩] st).1 = .ok () ∧
      stockOf (reserveInventory oid [⟨pid, q⟩] st).2.products pid =
        some (p.stock_quantity - q) ∧
      0 ≤ p.stock_quantity - q) ∧
    (p.stock_quantity < q →
      (reserveInventory oid [⟨pid, q⟩] st).1 = .error (reserveErr pid) ∧
      (reserveInventory oid [⟨pid, q⟩] st).2.products = st.products) := by
  constructor
  · intro hg
    have hloop : reserveLoop [⟨pid, q⟩] st.products st.cache =
        (.ok (updateId pid (decStock q) st.products),
          cacheDelPat "products:" (cacheDel ("product:" ++ toString pid) st.cache)) := by
      simp [reserveLoop, hl, if_pos hg]
    refine ⟨?_, ?_, by omega⟩
    · simp [reserveInventory, hloop]
    · simp only [reserveInventory, hloop]
      simp [stockOf, lookupId_updateId, hl, decStock]
  · intro hg
    have hloop : reserveLoop [⟨pid, q⟩] st.products st.cache =
        (.error (reserveErr pid), st.cache) := by
      simp [reserveLoop, hl, if_neg (not_le.mpr hg)]
    constructor
    · simp [reserveInventory, hloop]
    · simp [reserveInventory, hloop]

/-- C2 witness: on the seeded store, reserving 3 of product 1 (stock 50)
succeeds and leaves stock 47. -/
theorem c2_witness :
    (reserveInventory 7 [⟨1, 3⟩] wStore).1 = .ok () ∧
    stockOf (reserveInventory 7 [⟨1, 3⟩] wStore).2.products 1 = some 47 ∧
    (0 : ℤ) ≤ 47 := by
  have h := (c2_reserve_single_item wStore 7 1 3
    ⟨"LAPTOP-001", "Premium Laptop", priceLaptop, 50⟩ (by decide)).1 (by decide)
  exact ⟨h.1, by simpa using h.2.1, by decide⟩

/-- C3: whenever any single conditional decrement inside a reservation
fails, the whole call throws that error and the transaction ROLLBACK
leaves every product row exactly as before the call, including rows
decremented earlier in the same loop. -/
theorem c3_reserve_all_or_nothing (oid : ℤ) (items : List Item) (st : Store)
    (e : JsError) (c₂ : Cache)
    (h : reserveLoop items st.products st.cache = (.error e, c₂)) :
    (reserveInventory oid items st).1 = .error e ∧
    (reserveInventory oid items st).2.products = st.products := by
  constructor
  · simp [reserveInventory, h]
  · simp [reserveInventory, h]

/-- C3 witness: a two-entry reservation whose first decrement succeeds
(50 → 20) and whose second fails; the store's product rows are
untouched. -/
theorem c3_witness :
    (reserveInventory 7 [⟨1, 30⟩, ⟨1, 30⟩] wStore).1 = .error (reserveErr 1) ∧
    (reserveInventory 7 [⟨1, 30⟩, ⟨1, 30⟩] wStore).2.products = wStore.products :=
  c3_reserve_all_or_nothing 7 [⟨1, 30⟩, ⟨1, 30⟩] wStore (reserveErr 1) [] (by decide)

/-- C4: starting from a table whose stocks are all non-negative (with the
schema's unique primary keys, and the route-validated non-negative
quantities for the compensating release), each of the four inventory
operations leaves every stock non-negative: the reservation decrement is
guarded, the release only increments, and the two reads do not touch the
store. -/
theorem c4_stock_never_negative (st : Store) (oid pid : ℤ) (items : List Item)
    (hnd : keysNodup st.products)
    (hq : ∀ i ∈ items, 0 ≤ i.quantity)
    (hn : stocksNonneg st.products) :
    stocksNonneg ((reserveInventory oid items st).2.products) ∧
    stocksNonneg ((releaseInventory oid items st).products) ∧
    (checkInventory items st).2 = st ∧
    (getInventoryLevel pid st).2 = st := by
  refine ⟨?_, ?_, rfl, ?_⟩
  · rcases hr : reserveLoop items st.products st.cache with ⟨r, c₂⟩
    cases r with
    | ok prods₂ =>
      have := reserveLoop_nonneg items st.products st.cache prods₂ c₂ hr hnd hn
      simpa [reserveInventory, hr] using this
    | error e => simpa [reserveInventory, hr] using hn
  · exact releaseLoop_nonneg items st.products st.cache hq hn
  · cases hl : lookupId pid st.products with
    | none => simp [getInventoryLevel, hl]
    | some p => simp [getInventoryLevel, hl]

/-- C4 witness: concrete invocation of all four operations on the seeded
store, with one item of quantity 3. -/
theorem c4_witness :
    stocksNonneg ((reserveInventory 7 [⟨1, 3⟩] wStore).2.products) ∧
    stocksNonneg ((releaseInventory 7 [⟨1, 3⟩] wStore).products) ∧
    (checkInventory [⟨1, 3⟩] wStore).2 = wStore ∧
    (getInventoryLevel 1 wStore).2 = wStore :=
  c4_stock_never_negative wStore 7 1 [⟨1, 3⟩] (by decide) (by decide) (by decide)

/-- C10: a `checkInventory` call whose items mention a product id with no
matching row reports `available = false` overall, and the pushed entry for
that item is exactly `{productId, available: false,
reason: 'product_not_found'}` — no `requested` and no `sufficient`
field. -/
theorem c10_check_missing_product (st : Store) (items : List Item) (i : Item)
    (hmem : i ∈ items) (hmiss : lookupId i.productId st.products = none) :
    (checkInventory items st).1.available = false ∧
    checkOne st.products i =
      ⟨i.productId, none, none, none, some false, none, none, some "product_not_found"⟩ ∧
    checkOne st.products i ∈ (checkInventory items st).1.items := by
  have he : checkOne st.products i =
      ⟨i.productId, none, none, none, some false, none, none, some "product_not_found"⟩ := by
    simp [checkOne, hmiss]
  refine ⟨?_, he, List.mem_map_of_mem _ hmem⟩
  show (items.map (checkOne st.products)).all sufficientTruthy = false
  rw [List.all_eq_false]
  refine ⟨checkOne st.products i, List.mem_map_of_mem _ hmem, ?_⟩
  rw [he]
  simp [sufficientTruthy]

/-- C10 witness: item for the non-existent product 9 next to a normal
item. -/
theorem c10_witness :
    (checkInventory [⟨1, 3⟩, ⟨9, 1⟩] wStore).1.available = false ∧
    checkOne wStore.products ⟨9, 1⟩ =
      ⟨9, none, none, none, some false, none, none, some "product_not_found"⟩ ∧
    checkOne wStore.products ⟨9, 1⟩ ∈ (checkInventory [⟨1, 3⟩, ⟨9, 1⟩] wStore).1.items :=
  c10_check_missing_product wStore [⟨1, 3⟩, ⟨9, 1⟩] ⟨9, 1⟩ (by decide) (by decide)

/-! ### Workflow lemmas -/

theorem incStock_decStock (s : ℤ) (p : Product) : incStock s (decStock s p) = p := by
  cases p
  simp [incStock, decStock]

theorem lookupId_updateId_cons_self {α : Type} (k : ℤ) (f : α → α) (v : α)
    (rest : List (ℤ × α)) :
    lookupId k (updateId k f ((k, v) :: rest)) = some (f v) := by
  rw [updateId, if_pos rfl, lookupId, if_pos rfl]

/-- The step-2 accumulator that `buildDetails` returns is `fpSum`. -/
theorem buildDetails_ok_total (prods : List (ℤ × Product)) :
    ∀ (items : List Item) (t : ℚ) (acc ds : List Detail) (total : ℚ),
      buildDetails prods items t acc = .ok (ds, total) → total = fpSum prods items t := by
  intro items
  induction items with
  | nil =>
    intro t acc ds total h
    simp only [buildDetails, Except.ok.injEq, Prod.mk.injEq] at h
    exact h.2.symm
  | cons i rest ih =>
    intro t acc ds total h
    cases hl : lookupId i.productId prods with
    | none => simp [buildDetails, hl] at h
    | some p =>
      simp only [buildDetails, hl] at h
      rw [fpSum, hl]
      exact ih _ _ _ _ h

/-- Every error `buildDetails` can produce is a product 404. -/
theorem buildDetails_error_shape (prods : List (ℤ × Product)) :
    ∀ (items : List Item) (t : ℚ) (acc : List Detail) (e : JsError),
      buildDetails prods items t acc = .error e → ∃ pid, e = productNotFoundErr pid := by
  intro items
  induction items with
  | nil => intro t acc e h; simp [buildDetails] at h
  | cons i rest ih =>
    intro t acc e h
    cases hl : lookupId i.productId prods with
    | none =>
      simp only [buildDetails, hl, Except.error.injEq] at h
      exact ⟨i.productId, h.symm⟩
    | some p =>
      simp only [buildDetails, hl] at h
      exact ih _ _ _ h

/-- Every error the reservation loop can produce is the insufficient-stock
reservation error. -/
theorem reserveLoop_error_shape :
    ∀ (items : List Item) (prods : List (ℤ × Product)) (c : Cache) (e : JsError) (c₂ : Cache),
      reserveLoop items prods c = (.error e, c₂) → ∃ pid, e = reserveErr pid := by
  intro items
  induction items with
  | nil => intro prods c e c₂ h; simp [reserveLoop] at h
  | cons i rest ih =>
    intro prods c e c₂ h
    cases hl : lookupId i.productId prods with
    | none =>
      simp only [reserveLoop, hl, Prod.mk.injEq, Except.error.injEq] at h
      exact ⟨i.productId, h.1.symm⟩
    | some p =>
      by_cases hg : i.quantity ≤ p.stock_quantity
      · simp only [reserveLoop, hl, if_pos hg] at h
        exact ih _ _ _ _ h
      · simp only [reserveLoop, hl, if_neg hg, Prod.mk.injEq, Except.error.injEq] at h
        exact ⟨i.productId, h.1.symm⟩

/-- C7: when steps 1–4 succeed and the reservation loop then fails, the
handler surfaces exactly the inventory error, the freshly created order
row is updated to status `failed` (its other columns untouched:
`payment_status` stays `pending`), and no payment attempt is made. -/
theorem c7_reserve_failure_path (st : Store) (req : CreateReq) (pay : PaymentOutcome)
    (u : User) (ds : List Detail) (total : ℚ) (e : JsError) (c₂ : Cache)
    (hu : lookupId req.userId st.users = some u)
    (hb : buildDetails st.products req.items 0 [] = .ok (ds, total))
    (hav : (checkItems st.products req.items).available = true)
    (hr : reserveLoop req.items st.products st.cache = (.error e, c₂)) :
    (createOrder st req pay).1 = .error e ∧
    lookupId st.nextOrderId (createOrder st req pay).2.1.orders =
      some ⟨req.userId, "failed", dec2 total, req.paymentMethod, "pending"⟩ ∧
    Ev.paymentAttempted ∉ (createOrder st req pay).2.2 := by
  have hco : createOrder st req pay =
      (.error e,
        markOrder st.nextOrderId setFailed
          { (insertOrderTx st req ds total).2 with cache := c₂ },
        [.orderCreated st.nextOrderId, .reserveFailed]) := by
    unfold createOrder
    simp only [hu, hb, checkInventory, hav, if_true, reserveInventory]
    rw [show reserveLoop req.items (insertOrderTx st req ds total).2.products
          (insertOrderTx st req ds total).2.cache =
        reserveLoop req.items st.products st.cache from rfl, hr]
    rfl
  rw [hco]
  refine ⟨rfl, ?_, by simp⟩
  show lookupId st.nextOrderId (updateId st.nextOrderId setFailed
    ((st.nextOrderId, ⟨req.userId, "pending", dec2 total, req.paymentMethod, "pending"⟩)
      :: st.orders)) = _
  rw [lookupId_updateId_cons_self]
  rfl

/-- C5: when steps 1–5 succeed and the payment step fails, the handler
releases the reservation so that every product's stock returns to its
pre-reservation value, updates the order row to status `cancelled` with
`payment_status` `failed`, and surfaces the payment error; the payment
step was attempted and the release performed. -/
theorem c5_payment_failure_compensation (st : Store) (req : CreateReq) (reason : String)
    (u : User) (ds : List Detail) (total : ℚ) (prods₂ : List (ℤ × Product)) (c₂ : Cache)
    (hu : lookupId req.userId st.users = some u)
    (hb : buildDetails st.products req.items 0 [] = .ok (ds, total))
    (hav : (checkItems st.products req.items).available = true)
    (hr : reserveLoop req.items st.products st.cache = (.ok prods₂, c₂)) :
    (createOrder st req (.failure reason)).1 = .error (payErr reason) ∧
    (∀ pid, stockOf (createOrder st req (.failure reason)).2.1.products pid =
      stockOf st.products pid) ∧
    lookupId st.nextOrderId (createOrder st req (.failure reason)).2.1.orders =
      some ⟨req.userId, "cancelled", dec2 total, req.paymentMethod, "failed"⟩ ∧
    Ev.paymentAttempted ∈ (createOrder st req (.failure reason)).2.2 := by
  have hco : createOrder st req (.failure reason) =
      (.error (payErr reason),
        markOrder st.nextOrderId setCancelled
          (releaseInventory st.nextOrderId req.items
            { (insertOrderTx st req ds total).2 with products := prods₂, cache := c₂ }),
        [.orderCreated st.nextOrderId, .inventoryReserved, .paymentAttempted,
          .inventoryReleased]) := by
    unfold createOrder
    simp only [hu, hb, checkInventory, hav, if_true, reserveInventory]
    rw [show reserveLoop req.items (insertOrderTx st req ds total).2.products
          (insertOrderTx st req ds total).2.cache =
        reserveLoop req.items st.products st.cache from rfl, hr]
    rfl
  rw [hco]
  refine ⟨rfl, ?_, ?_, by simp⟩
  · intro pid
    show stockOf (releaseLoop req.items prods₂ c₂).1 pid = stockOf st.products pid
    rw [stockOf, releaseLoop_lookup,
      reserveLoop_ok_lookup req.items st.products st.cache prods₂ c₂ hr pid,
      Option.map_map, stockOf]
    cases lookupId pid st.products with
    | none => rfl
    | some p =>
      simp only [Option.map_some', Function.comp_apply, incStock_decStock]
  · show lookupId st.nextOrderId (updateId st.nextOrderId setCancelled
      ((st.nextOrderId, ⟨req.userId, "pending", dec2 total, req.paymentMethod, "pending"⟩)
        :: st.orders)) = _
    rw [lookupId_updateId_cons_self]
    rfl

/-- C6: a `POST /orders` failure carrying code `NOT_FOUND` or
`INSUFFICIENT_INVENTORY` happens in steps 1–3: the store is returned
untouched (no order row, no stock change, no cache change), no external
call was made, and an `INSUFFICIENT_INVENTORY` error carries exactly the
non-sufficient check entries as its `details`. -/
theorem c6_abort_before_order_row (st : Store) (req : CreateReq) (pay : PaymentOutcome)
    (e : JsError) (st₂ : Store) (tr : List Ev)
    (h : createOrder st req pay = (.error e, st₂, tr))
    (hc : e.code = some "NOT_FOUND" ∨ e.code = some "INSUFFICIENT_INVENTORY") :
    st₂ = st ∧ tr = [] ∧
    (e.code = some "INSUFFICIENT_INVENTORY" →
      e.details = some ((checkItems st.products req.items).items.filter
        (fun en => ! sufficientTruthy en))) := by
  unfold createOrder at h
  cases hu : lookupId req.userId st.users with
  | none =>
    simp only [hu, Prod.mk.injEq, Except.error.injEq] at h
    obtain ⟨h1, h2, h3⟩ := h
    subst h1 h2 h3
    refine ⟨rfl, rfl, ?_⟩
    intro hcode
    simp [userNotFoundErr] at hcode
  | some u =>
    cases hb : buildDetails st.products req.items 0 [] with
    | error eb =>
      simp only [hu, hb, Prod.mk.injEq, Except.error.injEq] at h
      obtain ⟨h1, h2, h3⟩ := h
      subst h1 h2 h3
      obtain ⟨pid, hpid⟩ := buildDetails_error_shape st.products req.items 0 [] _ hb
      subst hpid
      refine ⟨rfl, rfl, ?_⟩
      intro hcode
      simp [productNotFoundErr] at hcode
    | ok pr =>
      obtain ⟨ds, total⟩ := pr
      by_cases hav : (checkItems st.products req.items).available = true
      · rcases hrl : reserveLoop req.items (insertOrderTx st req ds total).2.products
          (insertOrderTx st req ds total).2.cache with ⟨r, c₂⟩
        cases r with
        | error er =>
          simp only [hu, hb, checkInventory, hav, if_true, reserveInventory, hrl,
            Prod.mk.injEq, Except.error.injEq] at h
          obtain ⟨h1, h2, h3⟩ := h
          subst h1
          obtain ⟨pid, hpid⟩ := reserveLoop_error_shape req.items _ _ _ _ hrl
          subst hpid
          rcases hc with hc | hc <;> simp [reserveErr] at hc
        | ok prods₂ =>
          cases pay with
          | success tx =>
            have hlk : lookupId (insertOrderTx st req ds total).1
                (markOrder (insertOrderTx st req ds total).1 setConfirmed
                  { (insertOrderTx st req ds total).2 with
                      products := prods₂, cache := c₂ }).orders =
                some (setConfirmed
                  ⟨req.userId, "pending", dec2 total, req.paymentMethod, "pending"⟩) :=
              lookupId_updateId_cons_self _ _ _ _
            simp only [hu, hb, checkInventory, hav, if_true, reserveInventory, hrl,
              processPayment, hlk] at h
            simp only [show lookupId req.userId
                (markOrder (insertOrderTx st req ds total).1 setConfirmed
                  { (insertOrderTx st req ds total).2 with
                      products := prods₂, cache := c₂ }).users = some u from hu,
              Prod.mk.injEq] at h
            exact absurd h.1 (by simp)
          | failure reason =>
            simp only [hu, hb, checkInventory, hav, if_true, reserveInventory, hrl,
              processPayment, Prod.mk.injEq, Except.error.injEq] at h
            obtain ⟨h1, h2, h3⟩ := h
            subst h1
            rcases hc with hc | hc <;> simp [payErr] at hc
      · rw [Bool.not_eq_true] at hav
        simp only [hu, hb, checkInventory, hav, Bool.false_eq_true, if_false,
          Prod.mk.injEq, Except.error.injEq] at h
        obtain ⟨h1, h2, h3⟩ := h
        subst h1 h2 h3
        refine ⟨rfl, rfl, fun _ => ?_⟩
        rfl

/-- If `k / 100` lies within half a cent of a nonnegative rational `x` —
the hypotheses are `-1/200 ≤ x - k/100` and `x - k/100 < 1/200`, both
scaled by the positive factor `200 * x.den` so that they read over the
integers — then the `DECIMAL(10, 2)` quantization of `x` is exactly
`k / 100`. -/
theorem dec2_quantizes (x : ℚ) (k : ℤ) (hx : 0 ≤ x.num)
    (hlo : -(x.den : ℤ) ≤ 2 * (100 * x.num - k * (x.den : ℤ)))
    (hhi : 2 * (100 * x.num - k * (x.den : ℤ)) < (x.den : ℤ)) :
    dec2 x = Rat.normalize k 100 := by
  have hd : (0 : ℤ) < (x.den : ℤ) := Int.natCast_pos.mpr x.pos
  have hsel : (if (x.den : ℤ) ≤ 2 * (100 * x.num % (x.den : ℤ))
      then 100 * x.num / (x.den : ℤ) + 1
      else 100 * x.num / (x.den : ℤ)) = k := by
    have hid := Int.ediv_add_emod (100 * x.num) ((x.den : ℤ))
    have hr0 := Int.emod_nonneg (100 * x.num) (ne_of_gt hd)
    have hrd := Int.emod_lt_of_pos (100 * x.num) hd
    have hkey : 100 * x.num - k * (x.den : ℤ) =
        (x.den : ℤ) * (100 * x.num / (x.den : ℤ) - k) + 100 * x.num % (x.den : ℤ) := by
      linear_combination -hid
    rw [hkey] at hlo hhi
    split
    · next hc =>
        by_contra hne
        rcases lt_trichotomy (100 * x.num / (x.den : ℤ) - k) (-1) with h | h | h
        · have h2 : 100 * x.num / (x.den : ℤ) - k ≤ -2 := by omega
          have h3 : (x.den : ℤ) * (100 * x.num / (x.den : ℤ) - k) ≤ (x.den : ℤ) * (-2) :=
            mul_le_mul_of_nonneg_left h2 (le_of_lt hd)
          omega
        · omega
        · have h2 : (0 : ℤ) ≤ 100 * x.num / (x.den : ℤ) - k := by omega
          have h3 : (0 : ℤ) ≤ (x.den : ℤ) * (100 * x.num / (x.den : ℤ) - k) :=
            mul_nonneg (le_of_lt hd) h2
          omega
    · next hc =>
        by_contra hne
        rcases lt_trichotomy (100 * x.num / (x.den : ℤ) - k) 0 with h | h | h
        · have h2 : 100 * x.num / (x.den : ℤ) - k ≤ -1 := by omega
          have h3 : (x.den : ℤ) * (100 * x.num / (x.den : ℤ) - k) ≤ (x.den : ℤ) * (-1) :=
            mul_le_mul_of_nonneg_left h2 (le_of_lt hd)
          omega
        · omega
        · have h2 : (1 : ℤ) ≤ 100 * x.num / (x.den : ℤ) - k := by omega
          have h3 : (x.den : ℤ) * 1 ≤ (x.den : ℤ) * (100 * x.num / (x.den : ℤ) - k) :=
            mul_le_mul_of_nonneg_left h2 (le_of_lt hd)
          omega
  rw [dec2, if_neg (not_lt.mpr hx), dec2pos, hsel]

/-- C1 (amended): for every create-order run that passes validation and
the advisory check, the step-2 total is the binary64 left fold
`fpSum` — each `parseFloat(price) * quantity` rounded once and each `+=`
rounded once — not an exact fixed-point computation, and whatever the
later steps do (reserve failure, payment failure or success), the
`total_amount` persisted on the created order row is the `DECIMAL(10, 2)`
quantization `dec2` of that floating-point value; consequently the
persisted value is exactly `k / 100` for any integer `k` whose half-cent
neighbourhood contains the float (the two inequality hypotheses are
`-1/200 ≤ fpSum - k/100 < 1/200` scaled by `200 * fpSum.den`), so the
persisted cell recovers the exact decimal sum whenever the accumulated
binary64 drift stays below half a cent. -/
theorem c1_total_is_float_sum (st : Store) (req : CreateReq) (pay : PaymentOutcome)
    (u : User) (ds : List Detail) (total : ℚ)
    (res : Except JsError CreateResp) (st₂ : Store) (tr : List Ev)
    (hu : lookupId req.userId st.users = some u)
    (hb : buildDetails st.products req.items 0 [] = .ok (ds, total))
    (hav : (checkItems st.products req.items).available = true)
    (h : createOrder st req pay = (res, st₂, tr)) :
    total = fpSum st.products req.items 0 ∧
    ∃ row, lookupId st.nextOrderId st₂.orders = some row ∧
      row.total_amount = dec2 (fpSum st.products req.items 0) ∧
      ∀ k : ℤ, 0 ≤ (fpSum st.products req.items 0).num →
        -((fpSum st.products req.items 0).den : ℤ) ≤
          2 * (100 * (fpSum st.products req.items 0).num -
            k * ((fpSum st.products req.items 0).den : ℤ)) →
        2 * (100 * (fpSum st.products req.items 0).num -
            k * ((fpSum st.products req.items 0).den : ℤ)) <
          ((fpSum st.products req.items 0).den : ℤ) →
        row.total_amount = Rat.normalize k 100 := by
  have ht := buildDetails_ok_total st.products req.items 0 [] ds total hb
  refine ⟨ht, ?_⟩
  rcases hrl : reserveLoop req.items (insertOrderTx st req ds total).2.products
    (insertOrderTx st req ds total).2.cache with ⟨r, c₂⟩
  cases r with
  | error er =>
    simp only [createOrder, hu, hb, checkInventory, hav, if_true, reserveInventory, hrl,
      Prod.mk.injEq] at h
    obtain ⟨h1, h2, h3⟩ := h
    subst h2
    refine ⟨setFailed ⟨req.userId, "pending", dec2 total, req.paymentMethod, "pending"⟩,
      lookupId_updateId_cons_self _ _ _ _, congrArg dec2 ht, ?_⟩
    intro k hk hlo hhi
    show dec2 total = Rat.normalize k 100
    rw [ht]
    exact dec2_quantizes _ k hk hlo hhi
  | ok prods₂ =>
    cases pay with
    | success tx =>
      have hlk : lookupId (insertOrderTx st req ds total).1
          (markOrder (insertOrderTx st req ds total).1 setConfirmed
            { (insertOrderTx st req ds total).2 with
                products := prods₂, cache := c₂ }).orders =
          some (setConfirmed
            ⟨req.userId, "pending", dec2 total, req.paymentMethod, "pending"⟩) :=
        lookupId_updateId_cons_self _ _ _ _
      simp only [createOrder, hu, hb, checkInventory, hav, if_true, reserveInventory, hrl,
        processPayment, hlk] at h
      simp only [show lookupId req.userId
          (markOrder (insertOrderTx st req ds total).1 setConfirmed
            { (insertOrderTx st req ds total).2 with
                products := prods₂, cache := c₂ }).users = some u from hu,
        Prod.mk.injEq] at h
      obtain ⟨h1, h2, h3⟩ := h
      subst h2
      refine ⟨setConfirmed ⟨req.userId, "pending", dec2 total, req.paymentMethod, "pending"⟩,
        lookupId_updateId_cons_self _ _ _ _, congrArg dec2 ht, ?_⟩
      intro k hk hlo hhi
      show dec2 total = Rat.normalize k 100
      rw [ht]
      exact dec2_quantizes _ k hk hlo hhi
    | failure reason =>
      simp only [createOrder, hu, hb, checkInventory, hav, if_true, reserveInventory, hrl,
        processPayment, Prod.mk.injEq] at h
      obtain ⟨h1, h2, h3⟩ := h
      subst h2
      refine ⟨setCancelled ⟨req.userId, "pending", dec2 total, req.paymentMethod, "pending"⟩,
        lookupId_updateId_cons_self _ _ _ _, congrArg dec2 ht, ?_⟩
      intro k hk hlo hhi
      show dec2 total = Rat.normalize k 100
      rw [ht]
      exact dec2_quantizes _ k hk hlo hhi

/-! ### Concrete binary64 values for the witnesses -/

/-- `parseFloat('1299.99')`: the double nearest 1299.99, which is
`5717416483970089 / 2^42` and not 1299.99 itself. -/
def fpLaptop : ℚ := ⟨5717416483970089, 4398046511104, by decide, by decide⟩

/-- The double result of `parseFloat('1299.99') * 3`. -/
def fp3Laptop : ℚ := ⟨4288062362977567, 1099511627776, by decide, by decide⟩

/-- The double result of `parseFloat('1299.99') * 30`. -/
def fp30Laptop : ℚ := ⟨2680038976860979, 68719476736, by decide, by decide⟩

/-- The double total of two items of `parseFloat('1299.99') * 30`. -/
def fp60Laptop : ℚ := ⟨2680038976860979, 34359738368, by decide, by decide⟩

/-- Request of the C1 counterexample: one laptop, quantity 1. -/
def oneLaptopReq : CreateReq := ⟨1, [⟨1, 1⟩], "credit_card"⟩

/-- C1 counterexample: for the valid request `oneLaptopReq` against the
seeded store (user exists, product exists, stock suffices), the step-2
computation returns `parseFloat('1299.99') * 1` accumulated in binary64 —
the dyadic rational `5717416483970089 / 2^42` — and **not** the exact
fixed-point decimal sum `1299.99`, refuting the claim that the total is
computed with fixed-point decimal arithmetic free of rounding drift; and
this drifted value is observable: it is the amount the success response
reports the payment step charged. -/
theorem c1_counterexample :
    buildDetails wStore.products oneLaptopReq.items 0 [] =
      .ok ([⟨1, 1, priceLaptop, "Premium Laptop", "LAPTOP-001", fpLaptop⟩], fpLaptop) ∧
    fpLaptop ≠ exactSum wStore.products oneLaptopReq.items ∧
    ((createOrder wStore oneLaptopReq (PaymentOutcome.success "txn")).1.map
      (fun r => r.payment.amount)) = .ok fpLaptop := by
  refine ⟨by decide, ?_, by decide⟩
  rw [← exactSumE_eq]
  decide

/-- C1 witness: the amended theorem applied to the counterexample run:
the computed total is the binary64 fold `fpSum`, here
`5717416483970089 / 2^42`; the persisted `total_amount` is its
`DECIMAL(10, 2)` quantization, and since this float lies within half a
cent of `129999 / 100` (the scaled inequalities evaluate on the
numerator `5717416483970089` and denominator `2^42`), the persisted
cell is exactly `1299.99` — the exact decimal sum. -/
theorem c1_witness :
    fpLaptop = fpSum wStore.products oneLaptopReq.items 0 ∧
    (∃ row, lookupId wStore.nextOrderId
        (createOrder wStore oneLaptopReq (PaymentOutcome.success "txn")).2.1.orders =
          some row ∧
      row.total_amount = dec2 (fpSum wStore.products oneLaptopReq.items 0) ∧
      row.total_amount = Rat.normalize 129999 100) ∧
    Rat.normalize 129999 100 = exactSum wStore.products oneLaptopReq.items := by
  obtain ⟨h1, row, h2, h3, h4⟩ :=
    c1_total_is_float_sum wStore oneLaptopReq (.success "txn")
      ⟨"john@example.com", "John Doe"⟩
      [⟨1, 1, priceLaptop, "Premium Laptop", "LAPTOP-001", fpLaptop⟩] fpLaptop
      (createOrder wStore oneLaptopReq (.success "txn")).1
      (createOrder wStore oneLaptopReq (.success "txn")).2.1
      (createOrder wStore oneLaptopReq (.success "txn")).2.2
      (by decide) (by decide) (by decide) rfl
  refine ⟨h1, ⟨row, h2, h3, h4 129999 (by decide) (by decide) (by decide)⟩, ?_⟩
  rw [← exactSumE_eq]
  decide

/-- Request used by the C5 witness: three laptops. -/
def threeLaptopReq : CreateReq := ⟨1, [⟨1, 3⟩], "credit_card"⟩

/-- Products table after reserving three laptops. -/
def wProducts47 : List (ℤ × Product) :=
  [(1, ⟨"LAPTOP-001", "Premium Laptop", priceLaptop, 47⟩),
   (2, ⟨"PHONE-001", "Smartphone Pro", pricePhone, 100⟩)]

/-- C5 witness: reservation of three laptops succeeds (50 → 47), the
payment is declined, and the handler restores stock 50, cancels the order
and surfaces the payment error. -/
theorem c5_witness :
    (createOrder wStore threeLaptopReq (.failure "card_declined")).1 =
      .error (payErr "card_declined") ∧
    (∀ pid, stockOf
        (createOrder wStore threeLaptopReq (.failure "card_declined")).2.1.products pid =
      stockOf wStore.products pid) ∧
    lookupId wStore.nextOrderId
        (createOrder wStore threeLaptopReq (.failure "card_declined")).2.1.orders =
      some ⟨1, "cancelled", dec2 fp3Laptop, "credit_card", "failed"⟩ ∧
    Ev.paymentAttempted ∈
      (createOrder wStore threeLaptopReq (.failure "card_declined")).2.2 :=
  c5_payment_failure_compensation wStore threeLaptopReq "card_declined"
    ⟨"john@example.com", "John Doe"⟩
    [⟨1, 3, priceLaptop, "Premium Laptop", "LAPTOP-001", fp3Laptop⟩] fp3Laptop
    wProducts47 [] (by decide) (by decide) (by decide) (by decide)

/-- Request used by the C6 witness: quantity 10000 against stock 50, the
spec's own insufficient-inventory scenario. -/
def hugeReq : CreateReq := ⟨1, [⟨1, 10000⟩], "credit_card"⟩

/-- The insufficient-inventory error of the C6 witness run. -/
def hugeReqErr : JsError :=
  insufficientErr ((checkItems wStore.products hugeReq.items).items.filter
    (fun en => ! sufficientTruthy en))

/-- C6 witness: the 10000-of-stock-50 request aborts with
`INSUFFICIENT_INVENTORY` before any mutation: the store comes back
identical, no external call happened, and the error details are the
offending entries. -/
theorem c6_witness :
    wStore = wStore ∧ ([] : List Ev) = [] ∧
    (hugeReqErr.code = some "INSUFFICIENT_INVENTORY" →
      hugeReqErr.details = some ((checkItems wStore.products hugeReq.items).items.filter
        (fun en => ! sufficientTruthy en))) :=
  c6_abort_before_order_row wStore hugeReq (.success "txn") hugeReqErr wStore []
    (by decide) (Or.inr rfl)

/-- Request used by the C7 witness: the same product twice, thirty each;
the advisory check passes against stock 50, the reservation's second
conditional decrement fails. -/
def dupReq : CreateReq := ⟨1, [⟨1, 30⟩, ⟨1, 30⟩], "credit_card"⟩

/-- C7 witness: the duplicate-item run fails reservation after the order
row exists: order marked `failed`, the inventory error surfaced, payment
never attempted. -/
theorem c7_witness :
    (createOrder wStore dupReq (.success "txn")).1 = .error (reserveErr 1) ∧
    lookupId wStore.nextOrderId (createOrder wStore dupReq (.success "txn")).2.1.orders =
      some ⟨1, "failed", dec2 fp60Laptop, "credit_card", "pending"⟩ ∧
    Ev.paymentAttempted ∉ (createOrder wStore dupReq (.success "txn")).2.2 :=
  c7_reserve_failure_path wStore dupReq (.success "txn")
    ⟨"john@example.com", "John Doe"⟩
    [⟨1, 30, priceLaptop, "Premium Laptop", "LAPTOP-001", fp30Laptop⟩,
     ⟨1, 30, priceLaptop, "Premium Laptop", "LAPTOP-001", fp30Laptop⟩] fp60Laptop
    (reserveErr 1) [] (by decide) (by decide) (by decide) (by decide)

/-- C9: for every error this code base surfaces through the HTTP error
middleware, the body carries the stable code (`INTERNAL_ERROR` when the
error has none) and the human message, the HTTP status follows the
code mapping 422/409/404/400-else-500, and a stack trace is only present
outside production (the code includes it exactly in development). -/
theorem c9_error_surface (r : RepoError) (env : String) :
    (errorHandler r.toJs env).bodyCode = r.toJs.code.getD "INTERNAL_ERROR" ∧
    (errorHandler r.toJs env).bodyMessage = r.toJs.message ∧
    (errorHandler r.toJs env).status = claimStatus r.toJs.code ∧
    (env = "production" → (errorHandler r.toJs env).hasStack = false) := by
  cases r <;>
    exact ⟨by simp [errorHandler, RepoError.toJs, userNotFoundErr, productNotFoundErr,
        insufficientErr, reserveErr, payErr],
      rfl,
      by simp [errorHandler, claimStatus, RepoError.toJs, userNotFoundErr,
        productNotFoundErr, insufficientErr, reserveErr, payErr],
      fun he => by subst he; rfl⟩

/-- C9 witness: a declined payment surfaced in production configuration:
code `PAYMENT_FAILED`, status 422, no stack. -/
theorem c9_witness :
    (errorHandler (RepoError.paymentFailure "card_declined").toJs "production").bodyCode =
      (RepoError.paymentFailure "card_declined").toJs.code.getD "INTERNAL_ERROR" ∧
    (errorHandler (RepoError.paymentFailure "card_declined").toJs "production").bodyMessage =
      (RepoError.paymentFailure "card_declined").toJs.message ∧
    (errorHandler (RepoError.paymentFailure "card_declined").toJs "production").status =
      claimStatus (RepoError.paymentFailure "card_declined").toJs.code ∧
    ("production" = "production" →
      (errorHandler (RepoError.paymentFailure "card_declined").toJs "production").hasStack =
        false) :=
  c9_error_surface (.paymentFailure "card_declined") "production"

/-! ### JSON values as the cached order is shaped

`GET /orders/:id` caches the order object through
`JSON.stringify`/`JSON.parse`.  The cached value is an object whose
fields are scalars (integers, strings, SQL `NULL`s) plus the `items`
array of flat scalar objects, so the JSON model covers exactly that
two-level shape: `Scalar` values, flat rows, and a top object whose
fields hold a scalar or an array of rows.  Strings are modelled as char
lists; `JSON.stringify` escapes `"` and `\` (control characters, which
escape differently, do not occur in the cached columns and are outside
the model). -/

inductive Scalar
  | snull
  | int (n : ℤ)
  | str (s : List Char)
deriving DecidableEq

/-- A flat JSON object of scalars: one row of a joined SQL result. -/
abbrev Row : Type := List (List Char × Scalar)

inductive JVal
  | scal (s : Scalar)
  | arr (rows : List Row)
deriving DecidableEq

/-- The cached order value: a JSON object of scalars plus row arrays. -/
abbrev Obj : Type := List (List Char × JVal)

/-! #### Serializer (`JSON.stringify`) -/

/-- Decimal digit to its character. -/
def digChar : ℕ → Char
  | 0 => '0'
  | 1 => '1'
  | 2 => '2'
  | 3 => '3'
  | 4 => '4'
  | 5 => '5'
  | 6 => '6'
  | 7 => '7'
  | 8 => '8'
  | 9 => '9'
  | _ => '?'

/-- Decimal digits of `n`, most significant first, prepended to `acc`;
the fuel only needs to cover the digit count. -/
def natCharsGo : ℕ → ℕ → List Char → List Char
  | 0, _, acc => acc
  | fuel + 1, n, acc =>
      if n < 10 then digChar n :: acc
      else natCharsGo fuel (n / 10) (digChar (n % 10) :: acc)

/-- Decimal notation of a natural number. -/
def natChars (n : ℕ) : List Char := natCharsGo (n + 1) n []

/-- Decimal notation of an integer. -/
def intChars (n : ℤ) : List Char :=
  if n < 0 then '-' :: natChars n.natAbs else natChars n.toNat

/-- String-literal escaping of one character: `"` and `\` get a
backslash. -/
def escChar (c : Char) : List Char :=
  if c = '"' ∨ c = '\\' then ['\\', c] else [c]

/-- String-literal escaping. -/
def escapeChars (s : List Char) : List Char := (s.map escChar).flatten

/-- A JSON string literal. -/
def strLit (s : List Char) : List Char := '"' :: (escapeChars s ++ ['"'])

/-- Serialization of a scalar. -/
def scalChars : Scalar → List Char
  | .snull => ['n', 'u', 'l', 'l']
  | .int n => intChars n
  | .str s => strLit s

/-- One `key:value` field of a row. -/
def fieldChars (f : List Char × Scalar) : List Char :=
  strLit f.1 ++ ':' :: scalChars f.2

/-- Comma-separated fields of a row. -/
def rowFieldsChars : Row → List Char
  | [] => []
  | [f] => fieldChars f
  | f :: rest => fieldChars f ++ ',' :: rowFieldsChars rest

/-- A row as a JSON object. -/
def rowChars (r : Row) : List Char := '{' :: (rowFieldsChars r ++ ['}'])

/-- Comma-separated rows. -/
def rowsChars : List Row → List Char
  | [] => []
  | [r] => rowChars r
  | r :: rest => rowChars r ++ ',' :: rowsChars rest

/-- A row list as a JSON array. -/
def arrChars (rs : List Row) : List Char := '[' :: (rowsChars rs ++ [']'])

/-- Serialization of a top-level value. -/
def jvalChars : JVal → List Char
  | .scal s => scalChars s
  | .arr rs => arrChars rs

/-- One `key:value` field of the top object. -/
def topFieldChars (f : List Char × JVal) : List Char :=
  strLit f.1 ++ ':' :: jvalChars f.2

/-- Comma-separated fields of the top object. -/
def topFieldsChars : Obj → List Char
  | [] => []
  | [f] => topFieldChars f
  | f :: rest => topFieldChars f ++ ',' :: topFieldsChars rest

/-- `JSON.stringify` of the cached order value. -/
def objChars (o : Obj) : List Char := '{' :: (topFieldsChars o ++ ['}'])

/-! #### Parser (`JSON.parse`)

A recursive-descent parser over the same grammar.  The field and row
loops carry explicit fuel; the top-level entry point passes the input
length, which the round-trip theorem shows is always enough.  On valid
input — and the cache only ever holds serializer output — it behaves
exactly as `JSON.parse` does. -/

/-- Decimal digit test. -/
def isDig (c : Char) : Bool := decide ('0' ≤ c) && decide (c ≤ '9')

/-- Value of a digit character. -/
def charDigit (c : Char) : ℕ := c.toNat - 48

/-- Consume leading digits, accumulating their value onto `v`. -/
def parseNatAux : ℕ → List Char → ℕ × List Char
  | v, [] => (v, [])
  | v, c :: cs => if isDig c then parseNatAux (v * 10 + charDigit c) cs else (v, c :: cs)

/-- Parse an optionally signed decimal integer. -/
def parseIntChars (cs : List Char) : ℤ × List Char :=
  match cs with
  | [] => (0, [])
  | c :: rest =>
      if c = '-' then
        ((fun p => (-(p.1 : ℤ), p.2)) (parseNatAux 0 rest))
      else ((fun p => ((p.1 : ℤ), p.2)) (parseNatAux 0 (c :: rest)))

/-- Consume a string-literal body up to the closing quote; the flag says
the previous character was a backslash, so the current one is taken
verbatim. -/
def parseStrAux : List Char → List Char → Bool → Option (List Char × List Char)
  | [], _, _ => none
  | c :: cs, acc, esc =>
      if esc then parseStrAux cs (c :: acc) false
      else if c = '"' then some (acc.reverse, cs)
      else if c = '\\' then parseStrAux cs acc true
      else parseStrAux cs (c :: acc) false

/-- Parse a string literal including its opening quote. -/
def parseStrLit (cs : List Char) : Option (List Char × List Char) :=
  match cs with
  | [] => none
  | c :: rest => if c = '"' then parseStrAux rest [] false else none

/-- Recognise the tail `ull` of the literal `null`. -/
def stripNull (cs : List Char) : Option (List Char) :=
  match cs with
  | c₁ :: c₂ :: c₃ :: r =>
      if c₁ = 'u' ∧ c₂ = 'l' ∧ c₃ = 'l' then some r else none
  | _ => none

/-- Parse a scalar: string, `null`, or integer. -/
def parseScal (cs : List Char) : Option (Scalar × List Char) :=
  match cs with
  | [] => none
  | c :: rest =>
      if c = '"' then (parseStrAux rest [] false).map (fun p => (Scalar.str p.1, p.2))
      else if c = 'n' then (stripNull rest).map (fun r => (Scalar.snull, r))
      else if c = '-' ∨ isDig c then
        some ((fun p => (Scalar.int p.1, p.2)) (parseIntChars (c :: rest)))
      else none

/-- Expect a colon. -/
def expColon (cs : List Char) : Option (List Char) :=
  match cs with
  | [] => none
  | c :: r => if c = ':' then some r else none

/-- After an object field: a comma continues, a closing brace ends. -/
def sepObj (cs : List Char) : Option (Bool × List Char) :=
  match cs with
  | [] => none
  | c :: r => if c = ',' then some (true, r) else if c = '}' then some (false, r) else none

/-- After an array element: a comma continues, a closing bracket ends. -/
def sepArr (cs : List Char) : Option (Bool × List Char) :=
  match cs with
  | [] => none
  | c :: r => if c = ',' then some (true, r) else if c = ']' then some (false, r) else none

/-- Parse the fields of a non-empty row up to and including the closing
brace. -/
def parseRowFields : ℕ → List Char → Option (Row × List Char)
  | 0, _ => none
  | fuel + 1, cs =>
      match parseStrLit cs with
      | none => none
      | some (k, cs₁) =>
          match expColon cs₁ with
          | none => none
          | some cs₂ =>
              match parseScal cs₂ with
              | none => none
              | some (v, cs₃) =>
                  match sepObj cs₃ with
                  | none => none
                  | some (true, cs₄) =>
                      (parseRowFields fuel cs₄).map (fun p => ((k, v) :: p.1, p.2))
                  | some (false, cs₄) => some ([(k, v)], cs₄)

/-- Parse a row object. -/
def parseRow (fuel : ℕ) (cs : List Char) : Option (Row × List Char) :=
  match cs with
  | [] => none
  | c :: cs₁ =>
      if c = '{' then
        match cs₁ with
        | [] => none
        | c₂ :: cs₂ => if c₂ = '}' then some ([], cs₂) else parseRowFields fuel (c₂ :: cs₂)
      else none

/-- Parse the elements of a non-empty row array up to and including the
closing bracket. -/
def parseRowsAux : ℕ → ℕ → List Char → Option (List Row × List Char)
  | 0, _, _ => none
  | fuel + 1, g, cs =>
      match parseRow g cs with
      | none => none
      | some (r, cs₁) =>
          match sepArr cs₁ with
          | none => none
          | some (true, cs₂) => (parseRowsAux fuel g cs₂).map (fun p => (r :: p.1, p.2))
          | some (false, cs₂) => some ([r], cs₂)

/-- Parse a row array. -/
def parseArr (f g : ℕ) (cs : List Char) : Option (List Row × List Char) :=
  match cs with
  | [] => none
  | c :: cs₁ =>
      if c = '[' then
        match cs₁ with
        | [] => none
        | c₂ :: cs₂ => if c₂ = ']' then some ([], cs₂) else parseRowsAux f g (c₂ :: cs₂)
      else none

/-- Parse a top-level value: array or scalar. -/
def parseJVal (f g : ℕ) (cs : List Char) : Option (JVal × List Char) :=
  match cs with
  | [] => none
  | c :: rest =>
      if c = '[' then (parseArr f g (c :: rest)).map (fun p => (JVal.arr p.1, p.2))
      else (parseScal (c :: rest)).map (fun p => (JVal.scal p.1, p.2))

/-- Parse the fields of a non-empty top object up to and including the
closing brace. -/
def parseTopFields : ℕ → ℕ → ℕ → List Char → Option (Obj × List Char)
  | 0, _, _, _ => none
  | fuel + 1, f, g, cs =>
      match parseStrLit cs with
      | none => none
      | some (k, cs₁) =>
          match expColon cs₁ with
          | none => none
          | some cs₂ =>
              match parseJVal f g cs₂ with
              | none => none
              | some (v, cs₃) =>
                  match sepObj cs₃ with
                  | none => none
                  | some (true, cs₄) =>
                      (parseTopFields fuel f g cs₄).map (fun p => ((k, v) :: p.1, p.2))
                  | some (false, cs₄) => some ([(k, v)], cs₄)

/-- Parse the top object. -/
def parseObjAll (e f g : ℕ) (cs : List Char) : Option (Obj × List Char) :=
  match cs with
  | [] => none
  | c :: cs₁ =>
      if c = '{' then
        match cs₁ with
        | [] => none
        | c₂ :: cs₂ => if c₂ = '}' then some ([], cs₂) else parseTopFields e f g (c₂ :: cs₂)
      else none

/-- `JSON.parse` of a cached order value: the whole input must be one
object. -/
def parseObjTop (cs : List Char) : Option Obj :=
  match parseObjAll cs.length cs.length cs.length cs with
  | some (o, []) => some o
  | _ => none

/-! #### Round-trip: numbers -/

/-- The rest of the input does not start with a digit (so a number
parse stops exactly at the serialized digits). -/
def headNotDig : List Char → Bool
  | [] => true
  | c :: _ => ! isDig c

theorem natCharsGo_append (f : ℕ) :
    ∀ (n : ℕ) (acc r : List Char),
      natCharsGo f n acc ++ r = natCharsGo f n (acc ++ r) := by
  induction f with
  | zero => intro n acc r; rfl
  | succ f ih =>
    intro n acc r
    by_cases h : n < 10
    · simp [natCharsGo, h]
    · simp only [natCharsGo, if_neg h]
      exact ih _ _ _

theorem digChar_spec (d : ℕ) (h : d < 10) :
    isDig (digChar d) = true ∧ charDigit (digChar d) = d := by
  interval_cases d <;> exact ⟨by decide, by decide⟩

theorem parseNatAux_stop (v : ℕ) (cs : List Char) (h : headNotDig cs = true) :
    parseNatAux v cs = (v, cs) := by
  cases cs with
  | nil => rfl
  | cons c t =>
    simp only [headNotDig, Bool.not_eq_true'] at h
    rw [parseNatAux, if_neg (by simp [h])]

theorem parseNatAux_natCharsGo (f : ℕ) :
    ∀ (n v : ℕ) (acc : List Char), n < 10 ^ (f + 1) →
      ∃ k, parseNatAux v (natCharsGo (f + 1) n acc) = parseNatAux (v * 10 ^ k + n) acc := by
  induction f with
  | zero =>
    intro n v acc hn
    have h10 : n < 10 := by simpa using hn
    refine ⟨1, ?_⟩
    rw [natCharsGo, if_pos h10, parseNatAux, if_pos (digChar_spec n h10).1,
      (digChar_spec n h10).2]
    norm_num
  | succ f ih =>
    intro n v acc hn
    by_cases h10 : n < 10
    · refine ⟨1, ?_⟩
      rw [natCharsGo, if_pos h10, parseNatAux, if_pos (digChar_spec n h10).1,
        (digChar_spec n h10).2]
      norm_num
    · rw [natCharsGo, if_neg h10]
      have hdiv : n / 10 < 10 ^ (f + 1) := by
        rw [Nat.div_lt_iff_lt_mul (by norm_num)]
        calc n < 10 ^ (f + 1 + 1) := hn
        _ = 10 ^ (f + 1) * 10 := by ring
      obtain ⟨k, hk⟩ := ih (n / 10) v (digChar (n % 10) :: acc) hdiv
      refine ⟨k + 1, ?_⟩
      rw [hk, parseNatAux, if_pos (digChar_spec _ (Nat.mod_lt _ (by norm_num))).1,
        (digChar_spec _ (Nat.mod_lt _ (by norm_num))).2]
      congr 1
      have := Nat.div_add_mod n 10
      ring_nf
      omega

theorem parseNat_natChars (n : ℕ) (rest : List Char) (h : headNotDig rest = true) :
    parseNatAux 0 (natChars n ++ rest) = (n, rest) := by
  rw [natChars, natCharsGo_append, List.nil_append]
  have hn : n < 10 ^ (n + 1) := by
    have h1 : n < 2 ^ n := Nat.lt_two_pow n
    have h2 : 2 ^ n ≤ 10 ^ n := Nat.pow_le_pow_left (by norm_num) n
    have h3 : 10 ^ n ≤ 10 ^ (n + 1) := Nat.pow_le_pow_right (by norm_num) (Nat.le_succ n)
    omega
  obtain ⟨k, hk⟩ := parseNatAux_natCharsGo n n 0 rest hn
  rw [hk, Nat.zero_mul, Nat.zero_add, parseNatAux_stop _ _ h]

theorem natCharsGo_digits (f : ℕ) :
    ∀ (n : ℕ) (acc : List Char), (∀ c ∈ acc, isDig c = true) →
      ∀ c ∈ natCharsGo f n acc, isDig c = true := by
  induction f with
  | zero => intro n acc ha c hc; exact ha c hc
  | succ f ih =>
    intro n acc ha c hc
    by_cases h10 : n < 10
    · rw [natCharsGo, if_pos h10] at hc
      rcases List.mem_cons.mp hc with hc | hc
      · subst hc; exact (digChar_spec n h10).1
      · exact ha c hc
    · rw [natCharsGo, if_neg h10] at hc
      refine ih _ _ ?_ c hc
      intro c₂ hc₂
      rcases List.mem_cons.mp hc₂ with hc₂ | hc₂
      · subst hc₂; exact (digChar_spec _ (Nat.mod_lt _ (by norm_num))).1
      · exact ha c₂ hc₂

theorem natCharsGo_ne_nil (f : ℕ) :
    ∀ (n : ℕ) (acc : List Char), acc ≠ [] → natCharsGo f n acc ≠ [] := by
  induction f with
  | zero => intro n acc h; exact h
  | succ f ih =>
    intro n acc h
    by_cases h10 : n < 10
    · rw [natCharsGo, if_pos h10]; exact List.cons_ne_nil _ _
    · rw [natCharsGo, if_neg h10]
      exact ih _ _ (List.cons_ne_nil _ _)

theorem natChars_ne_nil (n : ℕ) : natChars n ≠ [] := by
  rw [natChars]
  by_cases h10 : n < 10
  · rw [natCharsGo, if_pos h10]; exact List.cons_ne_nil _ _
  · rw [natCharsGo, if_neg h10]
    exact natCharsGo_ne_nil _ _ _ (List.cons_ne_nil _ _)

theorem natChars_digits (n : ℕ) : ∀ c ∈ natChars n, isDig c = true :=
  natCharsGo_digits _ _ _ (by intro c hc; cases hc)

/-- A digit character is none of the JSON structural dispatch
characters. -/
theorem isDig_ne (c : Char) (h : isDig c = true) :
    c ≠ '"' ∧ c ≠ 'n' ∧ c ≠ '[' ∧ c ≠ '-' := by
  refine ⟨?_, ?_, ?_, ?_⟩ <;> (intro he; subst he; exact absurd h (by decide))

/-- The serialized integer starts with `'-'` or a digit. -/
theorem intChars_head (n : ℤ) :
    ∃ c t, intChars n = c :: t ∧ (c = '-' ∨ isDig c = true) := by
  rw [intChars]
  by_cases hn : n < 0
  · exact ⟨'-', natChars n.natAbs, by rw [if_pos hn], Or.inl rfl⟩
  · rw [if_neg hn]
    cases hc : natChars n.toNat with
    | nil => exact absurd hc (natChars_ne_nil _)
    | cons c t =>
      refine ⟨c, t, rfl, Or.inr ?_⟩
      exact natChars_digits _ c (hc ▸ List.mem_cons_self _ _)

theorem parseIntChars_intChars (n : ℤ) (rest : List Char) (h : headNotDig rest = true) :
    parseIntChars (intChars n ++ rest) = (n, rest) := by
  by_cases hn : n < 0
  · rw [intChars, if_pos hn, List.cons_append, parseIntChars, if_pos rfl,
      parseNat_natChars _ _ h]
    simp only [Prod.mk.injEq, and_true]
    omega
  · rw [intChars, if_neg hn]
    obtain ⟨c, t, hct, _⟩ := intChars_head n
    rw [intChars, if_neg hn] at hct
    have hdig : isDig c = true :=
      natChars_digits _ c (hct ▸ List.mem_cons_self _ _)
    rw [hct, List.cons_append, parseIntChars, if_neg (isDig_ne c hdig).2.2.2,
      ← List.cons_append, ← hct, parseNat_natChars _ _ h]
    simp only [Prod.mk.injEq, and_true]
    omega

/-! #### Round-trip: strings and scalars -/

theorem parseStrAux_escape :
    ∀ (s acc rest : List Char),
      parseStrAux (escapeChars s ++ '"' :: rest) acc false = some (acc.reverse ++ s, rest) := by
  intro s
  induction s with
  | nil =>
    intro acc rest
    show parseStrAux ('"' :: rest) acc false = _
    show (if false = true then _ else if '"' = '"' then some (acc.reverse, rest) else _) = _
    rw [if_neg (by decide), if_pos rfl, List.append_nil]
  | cons c s ih =>
    intro acc rest
    have hesc : escapeChars (c :: s) = escChar c ++ escapeChars s := by
      simp [escapeChars]
    rw [hesc, List.append_assoc]
    by_cases hc : c = '"' ∨ c = '\\'
    · rw [escChar, if_pos hc]
      show parseStrAux ('\\' :: c :: (escapeChars s ++ '"' :: rest)) acc false = _
      rw [show parseStrAux ('\\' :: c :: (escapeChars s ++ '"' :: rest)) acc false =
          parseStrAux (escapeChars s ++ '"' :: rest) (c :: acc) false from rfl]
      rw [ih (c :: acc) rest]
      simp
    · rw [escChar, if_neg hc]
      push_neg at hc
      show parseStrAux (c :: (escapeChars s ++ '"' :: rest)) acc false = _
      show (if false = true then _
        else if c = '"' then some (acc.reverse, escapeChars s ++ '"' :: rest)
        else if c = '\\' then parseStrAux (escapeChars s ++ '"' :: rest) acc true
        else parseStrAux (escapeChars s ++ '"' :: rest) (c :: acc) false) = _
      rw [if_neg (by decide), if_neg hc.1, if_neg hc.2, ih (c :: acc) rest]
      simp

theorem parseStrLit_strLit (s rest : List Char) :
    parseStrLit (strLit s ++ rest) = some (s, rest) := by
  show parseStrLit ('"' :: (escapeChars s ++ ['"'] ++ rest)) = _
  rw [parseStrLit, if_pos rfl, List.append_assoc, List.singleton_append,
    parseStrAux_escape]
  rfl

/-- Definitional shape of `parseScal` on a non-empty input. -/
theorem parseScal_shape (c : Char) (rest : List Char) :
    parseScal (c :: rest) =
      if c = '"' then (parseStrAux rest [] false).map (fun p => (Scalar.str p.1, p.2))
      else if c = 'n' then (stripNull rest).map (fun r => (Scalar.snull, r))
      else if c = '-' ∨ isDig c then
        some ((fun p => (Scalar.int p.1, p.2)) (parseIntChars (c :: rest)))
      else none := rfl

theorem parseScal_scalChars (v : Scalar) (rest : List Char) (h : headNotDig rest = true) :
    parseScal (scalChars v ++ rest) = some (v, rest) := by
  cases v with
  | snull =>
    show parseScal ('n' :: 'u' :: 'l' :: 'l' :: rest) = _
    rw [parseScal_shape, if_neg (by decide), if_pos rfl,
      show stripNull ('u' :: 'l' :: 'l' :: rest) = some rest from by
        rw [stripNull, if_pos ⟨rfl, rfl, rfl⟩]]
    rfl
  | str s =>
    show parseScal ('"' :: (escapeChars s ++ ['"'] ++ rest)) = _
    rw [parseScal_shape, if_pos rfl, List.append_assoc, List.singleton_append,
      parseStrAux_escape]
    rfl
  | int n =>
    obtain ⟨c, t, hct, hd⟩ := intChars_head n
    have hne : c ≠ '"' ∧ c ≠ 'n' := by
      rcases hd with hd | hd
      · subst hd; exact ⟨by decide, by decide⟩
      · exact ⟨(isDig_ne c hd).1, (isDig_ne c hd).2.1⟩
    show parseScal (intChars n ++ rest) = _
    rw [hct, List.cons_append, parseScal_shape, if_neg hne.1, if_neg hne.2,
      if_pos hd, ← List.cons_append, ← hct, parseIntChars_intChars n rest h]

/-! #### Round-trip: rows, arrays, and the top object -/

theorem expColon_cons (r : List Char) : expColon (':' :: r) = some r := rfl

theorem sepObj_comma (r : List Char) : sepObj (',' :: r) = some (true, r) := rfl

theorem sepObj_brace (r : List Char) : sepObj ('}' :: r) = some (false, r) := rfl

theorem sepArr_comma (r : List Char) : sepArr (',' :: r) = some (true, r) := rfl

theorem sepArr_bracket (r : List Char) : sepArr (']' :: r) = some (false, r) := rfl

theorem parseRowFields_rt :
    ∀ (r : Row) (fuel : ℕ) (rest : List Char), r ≠ [] → r.length ≤ fuel →
      parseRowFields fuel (rowFieldsChars r ++ '}' :: rest) = some (r, rest) := by
  intro r
  induction r with
  | nil => intro fuel rest h _; exact absurd rfl h
  | cons f r ih =>
    intro fuel rest _ hlen
    cases fuel with
    | zero => simp at hlen
    | succ fuel =>
      cases r with
      | nil =>
        show parseRowFields (fuel + 1) (fieldChars f ++ '}' :: rest) = _
        rw [fieldChars, List.append_assoc, List.cons_append]
        simp only [parseRowFields, parseStrLit_strLit, expColon_cons,
          parseScal_scalChars f.2 ('}' :: rest) rfl, sepObj_brace]
      | cons f₂ r₂ =>
        show parseRowFields (fuel + 1)
          ((fieldChars f ++ ',' :: rowFieldsChars (f₂ :: r₂)) ++ '}' :: rest) = _
        rw [fieldChars, List.append_assoc, List.append_assoc, List.cons_append,
          List.cons_append]
        simp only [parseRowFields, parseStrLit_strLit, expColon_cons,
          parseScal_scalChars f.2 (',' :: (rowFieldsChars (f₂ :: r₂) ++ '}' :: rest)) rfl,
          sepObj_comma]
        rw [ih fuel rest (List.cons_ne_nil _ _) (by simpa using hlen)]
        rfl

/-- The serialized fields of a non-empty row start with a quote, not a
closing brace. -/
theorem rowFieldsChars_head (f : List Char × Scalar) (r : Row) :
    ∃ t, rowFieldsChars (f :: r) = '"' :: t := by
  cases r with
  | nil =>
    exact ⟨escapeChars f.1 ++ ['"'] ++ ':' :: scalChars f.2,
      by rw [show rowFieldsChars [f] = fieldChars f from rfl, fieldChars, strLit]; simp⟩
  | cons f₂ r₂ =>
    refine ⟨escapeChars f.1 ++ ['"'] ++ ':' :: scalChars f.2 ++
      ',' :: rowFieldsChars (f₂ :: r₂), ?_⟩
    rw [show rowFieldsChars (f :: f₂ :: r₂) =
      fieldChars f ++ ',' :: rowFieldsChars (f₂ :: r₂) from rfl, fieldChars, strLit]
    simp

theorem parseRow_rt (r : Row) (fuel : ℕ) (rest : List Char) (hlen : r.length ≤ fuel) :
    parseRow fuel (rowChars r ++ rest) = some (r, rest) := by
  cases r with
  | nil =>
    show parseRow fuel ('{' :: ('}' :: rest)) = _
    rfl
  | cons f r₂ =>
    obtain ⟨t, ht⟩ := rowFieldsChars_head f r₂
    show parseRow fuel ('{' :: ((rowFieldsChars (f :: r₂) ++ ['}']) ++ rest)) = _
    rw [List.append_assoc, List.singleton_append, ht, List.cons_append, parseRow,
      if_pos rfl, if_neg (by decide), ← List.cons_append, ← ht,
      parseRowFields_rt (f :: r₂) fuel rest (List.cons_ne_nil _ _) hlen]

theorem parseRowsAux_rt :
    ∀ (rs : List Row) (f g : ℕ) (rest : List Char), rs ≠ [] → rs.length ≤ f →
      (∀ r ∈ rs, r.length ≤ g) →
      parseRowsAux f g (rowsChars rs ++ ']' :: rest) = some (rs, rest) := by
  intro rs
  induction rs with
  | nil => intro f g rest h _ _; exact absurd rfl h
  | cons r rs ih =>
    intro f g rest _ hlen hg
    cases f with
    | zero => simp at hlen
    | succ f =>
      cases rs with
      | nil =>
        show parseRowsAux (f + 1) g (rowChars r ++ ']' :: rest) = _
        simp only [parseRowsAux,
          parseRow_rt r g (']' :: rest) (hg r (List.mem_cons_self _ _)), sepArr_bracket]
      | cons r₂ rs₂ =>
        show parseRowsAux (f + 1) g
          ((rowChars r ++ ',' :: rowsChars (r₂ :: rs₂)) ++ ']' :: rest) = _
        rw [List.append_assoc, List.cons_append]
        simp only [parseRowsAux,
          parseRow_rt r g (',' :: (rowsChars (r₂ :: rs₂) ++ ']' :: rest))
            (hg r (List.mem_cons_self _ _)),
          sepArr_comma]
        rw [ih f g rest (List.cons_ne_nil _ _) (by simpa using hlen)
          (fun r₃ h₃ => hg r₃ (List.mem_cons_of_mem _ h₃))]
        rfl

/-- The serialization of a non-empty row list starts with an opening
brace, not a closing bracket. -/
theorem rowsChars_head (r : Row) (rs : List Row) :
    ∃ t, rowsChars (r :: rs) = '{' :: t := by
  cases rs with
  | nil => exact ⟨rowFieldsChars r ++ ['}'], rfl⟩
  | cons r₂ rs₂ =>
    exact ⟨(rowFieldsChars r ++ ['}']) ++ ',' :: rowsChars (r₂ :: rs₂),
      by rw [show rowsChars (r :: r₂ :: rs₂) =
        rowChars r ++ ',' :: rowsChars (r₂ :: rs₂) from rfl, rowChars]; simp⟩

theorem parseArr_rt (rs : List Row) (f g : ℕ) (rest : List Char)
    (hlen : rs.length ≤ f) (hg : ∀ r ∈ rs, r.length ≤ g) :
    parseArr f g (arrChars rs ++ rest) = some (rs, rest) := by
  cases rs with
  | nil =>
    show parseArr f g ('[' :: (']' :: rest)) = _
    rfl
  | cons r rs₂ =>
    obtain ⟨t, ht⟩ := rowsChars_head r rs₂
    show parseArr f g ('[' :: ((rowsChars (r :: rs₂) ++ [']']) ++ rest)) = _
    rw [List.append_assoc, List.singleton_append, ht, List.cons_append, parseArr,
      if_pos rfl, if_neg (by decide), ← List.cons_append, ← ht,
      parseRowsAux_rt (r :: rs₂) f g rest (List.cons_ne_nil _ _) hlen hg]

/-- Fuel budget a top-level value needs: nothing for scalars, the row
count and per-row field counts for arrays. -/
def arrBound (f g : ℕ) : JVal → Prop
  | .scal _ => True
  | .arr rs => rs.length ≤ f ∧ ∀ r ∈ rs, r.length ≤ g

/-- The serialization of a scalar does not start with an opening
bracket. -/
theorem scalChars_head (s : Scalar) : ∃ c t, scalChars s = c :: t ∧ c ≠ '[' := by
  cases s with
  | snull => exact ⟨'n', ['u', 'l', 'l'], rfl, by decide⟩
  | str s₂ => exact ⟨'"', escapeChars s₂ ++ ['"'], rfl, by decide⟩
  | int n =>
    obtain ⟨c, t, hct, hd⟩ := intChars_head n
    refine ⟨c, t, hct, ?_⟩
    rcases hd with hd | hd
    · subst hd; decide
    · exact (isDig_ne c hd).2.2.1

theorem parseJVal_rt (v : JVal) (f g : ℕ) (rest : List Char)
    (h : headNotDig rest = true) (hb : arrBound f g v) :
    parseJVal f g (jvalChars v ++ rest) = some (v, rest) := by
  cases v with
  | arr rs =>
    show parseJVal f g (('[' :: (rowsChars rs ++ [']'])) ++ rest) = _
    rw [List.cons_append, parseJVal, if_pos rfl, ← List.cons_append,
      show ('[' :: (rowsChars rs ++ [']'])) = arrChars rs from rfl,
      parseArr_rt rs f g rest hb.1 hb.2]
    rfl
  | scal s =>
    obtain ⟨c, t, hct, hc⟩ := scalChars_head s
    show parseJVal f g (scalChars s ++ rest) = _
    rw [hct, List.cons_append, parseJVal, if_neg hc, ← List.cons_append, ← hct,
      parseScal_scalChars s rest h]
    rfl

theorem parseTopFields_rt :
    ∀ (o : Obj) (e f g : ℕ) (rest : List Char), o ≠ [] → o.length ≤ e →
      (∀ kv ∈ o, arrBound f g (Prod.snd kv)) →
      parseTopFields e f g (topFieldsChars o ++ '}' :: rest) = some (o, rest) := by
  intro o
  induction o with
  | nil => intro e f g rest h _ _; exact absurd rfl h
  | cons kv o₂ ih =>
    intro e f g rest _ hlen hb
    cases e with
    | zero => simp at hlen
    | succ e =>
      cases o₂ with
      | nil =>
        show parseTopFields (e + 1) f g (topFieldChars kv ++ '}' :: rest) = _
        rw [topFieldChars, List.append_assoc, List.cons_append]
        simp only [parseTopFields, parseStrLit_strLit, expColon_cons,
          parseJVal_rt kv.2 f g ('}' :: rest) rfl (hb kv (List.mem_cons_self _ _)),
          sepObj_brace]
      | cons kv₂ o₃ =>
        show parseTopFields (e + 1) f g
          ((topFieldChars kv ++ ',' :: topFieldsChars (kv₂ :: o₃)) ++ '}' :: rest) = _
        rw [topFieldChars, List.append_assoc, List.append_assoc, List.cons_append,
          List.cons_append]
        simp only [parseTopFields, parseStrLit_strLit, expColon_cons,
          parseJVal_rt kv.2 f g (',' :: (topFieldsChars (kv₂ :: o₃) ++ '}' :: rest)) rfl
            (hb kv (List.mem_cons_self _ _)),
          sepObj_comma]
        rw [ih e f g rest (List.cons_ne_nil _ _) (by simpa using hlen)
          (fun kv₃ h₃ => hb kv₃ (List.mem_cons_of_mem _ h₃))]
        rfl

/-- The serialized fields of a non-empty top object start with a quote,
not a closing brace. -/
theorem topFieldsChars_head (kv : List Char × JVal) (o : Obj) :
    ∃ t, topFieldsChars (kv :: o) = '"' :: t := by
  cases o with
  | nil =>
    exact ⟨escapeChars kv.1 ++ ['"'] ++ ':' :: jvalChars kv.2,
      by rw [show topFieldsChars [kv] = topFieldChars kv from rfl, topFieldChars, strLit]
         simp⟩
  | cons kv₂ o₂ =>
    refine ⟨escapeChars kv.1 ++ ['"'] ++ ':' :: jvalChars kv.2 ++
      ',' :: topFieldsChars (kv₂ :: o₂), ?_⟩
    rw [show topFieldsChars (kv :: kv₂ :: o₂) =
      topFieldChars kv ++ ',' :: topFieldsChars (kv₂ :: o₂) from rfl, topFieldChars, strLit]
    simp

theorem parseObjAll_rt (o : Obj) (e f g : ℕ) (rest : List Char)
    (hlen : o.length ≤ e) (hb : ∀ kv ∈ o, arrBound f g (Prod.snd kv)) :
    parseObjAll e f g (objChars o ++ rest) = some (o, rest) := by
  cases o with
  | nil =>
    show parseObjAll e f g ('{' :: ('}' :: rest)) = _
    rfl
  | cons kv o₂ =>
    obtain ⟨t, ht⟩ := topFieldsChars_head kv o₂
    show parseObjAll e f g ('{' :: ((topFieldsChars (kv :: o₂) ++ ['}']) ++ rest)) = _
    rw [List.append_assoc, List.singleton_append, ht, List.cons_append, parseObjAll,
      if_pos rfl, if_neg (by decide), ← List.cons_append, ← ht,
      parseTopFields_rt (kv :: o₂) e f g rest (List.cons_ne_nil _ _) hlen hb]

/-! #### Length bounds: the input length is always enough fuel -/

theorem one_le_len_fieldChars (f : List Char × Scalar) : 1 ≤ (fieldChars f).length := by
  simp [fieldChars, strLit]

theorem len_rowFields : ∀ r : Row, r.length ≤ (rowFieldsChars r).length := by
  intro r
  induction r with
  | nil => simp [rowFieldsChars]
  | cons f r₂ ih =>
    cases r₂ with
    | nil =>
      show 1 ≤ (fieldChars f).length
      exact one_le_len_fieldChars f
    | cons f₂ r₃ =>
      show (f :: f₂ :: r₃).length ≤
        (fieldChars f ++ ',' :: rowFieldsChars (f₂ :: r₃)).length
      have h1 := one_le_len_fieldChars f
      have h2 := ih
      simp only [List.length_cons, List.length_append] at *
      omega

theorem len_rowChars (r : Row) : (rowChars r).length = (rowFieldsChars r).length + 2 := by
  simp [rowChars]

theorem len_rows : ∀ rs : List Row, rs.length ≤ (rowsChars rs).length := by
  intro rs
  induction rs with
  | nil => simp [rowsChars]
  | cons r rs₂ ih =>
    cases rs₂ with
    | nil =>
      show 1 ≤ (rowChars r).length
      rw [len_rowChars]
      omega
    | cons r₂ rs₃ =>
      show (r :: r₂ :: rs₃).length ≤ (rowChars r ++ ',' :: rowsChars (r₂ :: rs₃)).length
      have h1 := len_rowChars r
      have h2 := ih
      simp only [List.length_cons, List.length_append] at *
      omega

theorem mem_rows_le : ∀ (rs : List Row) (r : Row), r ∈ rs →
    (rowFieldsChars r).length ≤ (rowsChars rs).length := by
  intro rs
  induction rs with
  | nil => intro r h; cases h
  | cons r₀ rs₂ ih =>
    intro r h
    rcases List.mem_cons.mp h with h | h
    · subst h
      cases rs₂ with
      | nil =>
        show (rowFieldsChars r).length ≤ (rowChars r).length
        rw [len_rowChars]
        omega
      | cons r₂ rs₃ =>
        show (rowFieldsChars r).length ≤
          (rowChars r ++ ',' :: rowsChars (r₂ :: rs₃)).length
        have h1 := len_rowChars r
        simp only [List.length_append, List.length_cons] at *
        omega
    · have hne : rs₂ ≠ [] := by
        intro he
        subst he
        cases h
      cases rs₂ with
      | nil => exact absurd rfl hne
      | cons r₂ rs₃ =>
        show (rowFieldsChars r).length ≤
          (rowChars r₀ ++ ',' :: rowsChars (r₂ :: rs₃)).length
        have h2 := ih r h
        simp only [List.length_append, List.length_cons] at *
        omega

theorem one_le_len_topFieldChars (kv : List Char × JVal) :
    1 ≤ (topFieldChars kv).length := by
  simp [topFieldChars, strLit]

theorem len_topFields : ∀ o : Obj, o.length ≤ (topFieldsChars o).length := by
  intro o
  induction o with
  | nil => simp [topFieldsChars]
  | cons kv o₂ ih =>
    cases o₂ with
    | nil =>
      show 1 ≤ (topFieldChars kv).length
      exact one_le_len_topFieldChars kv
    | cons kv₂ o₃ =>
      show (kv :: kv₂ :: o₃).length ≤
        (topFieldChars kv ++ ',' :: topFieldsChars (kv₂ :: o₃)).length
      have h1 := one_le_len_topFieldChars kv
      have h2 := ih
      simp only [List.length_cons, List.length_append] at *
      omega

theorem mem_top_le : ∀ (o : Obj) (kv : List Char × JVal), kv ∈ o →
    (jvalChars (Prod.snd kv)).length ≤ (topFieldsChars o).length := by
  intro o
  induction o with
  | nil => intro kv h; cases h
  | cons kv₀ o₂ ih =>
    intro kv h
    have hfield : (jvalChars (Prod.snd kv₀)).length ≤ (topFieldChars kv₀).length := by
      simp only [topFieldChars, strLit, List.length_append, List.length_cons]
      omega
    rcases List.mem_cons.mp h with h | h
    · subst h
      cases o₂ with
      | nil => exact hfield
      | cons kv₂ o₃ =>
        show (jvalChars kv.2).length ≤
          (topFieldChars kv ++ ',' :: topFieldsChars (kv₂ :: o₃)).length
        simp only [List.length_append, List.length_cons] at *
        omega
    · have hne : o₂ ≠ [] := by
        intro he
        subst he
        cases h
      cases o₂ with
      | nil => exact absurd rfl hne
      | cons kv₂ o₃ =>
        show (jvalChars kv.2).length ≤
          (topFieldChars kv₀ ++ ',' :: topFieldsChars (kv₂ :: o₃)).length
        have h2 := ih kv h
        simp only [List.length_append, List.length_cons] at *
        omega

/-- Round trip of the cache serialization: `JSON.parse` of
`JSON.stringify` returns the cached order value unchanged. -/
theorem parseObjTop_objChars (o : Obj) : parseObjTop (objChars o) = some o := by
  have hob : (objChars o).length = (topFieldsChars o).length + 2 := by
    simp [objChars]
  have hrt := parseObjAll_rt o (objChars o).length (objChars o).length
    (objChars o).length []
    (by have := len_topFields o; omega)
    (by
      intro kv hkv
      cases hv : Prod.snd kv with
      | scal s => exact trivial
      | arr rs =>
        have htop := mem_top_le o kv hkv
        rw [hv] at htop
        have harr : (jvalChars (JVal.arr rs)).length = (rowsChars rs).length + 2 := by
          simp [jvalChars, arrChars]
        constructor
        · have := len_rows rs
          omega
        · intro r hr
          have h1 := mem_rows_le rs r hr
          have h2 := len_rowFields r
          omega)
  rw [List.append_nil] at hrt
  rw [parseObjTop, hrt]

/-! ### `GET /orders/:id` (`routes/orders.js`) -/

/-- Decimal-column string as delivered by the pg driver, rendered from
the exact rational.  The claims depend only on this rendering being a
function of the value, not on its exact digits, so the canonical
numerator/denominator form stands in for the driver's decimal digits. -/
def decChars (q : ℚ) : List Char := intChars q.num ++ '/' :: natChars q.den

/-- Cache key of an order, `order:<id>`. -/
def orderKey (oid : ℤ) : String := "order:" ++ toString oid

/-- Error thrown when the order join returns no row. -/
def orderNotFoundErr : JsError := ⟨"Order not found", some "NOT_FOUND", some 404, none, none⟩

/-- Error standing for the `SyntaxError` that `JSON.parse` would throw on
a corrupt cache entry (unreachable for entries this service wrote). -/
def badCacheErr : JsError := ⟨"Unexpected token in JSON", none, none, none, none⟩

/-- One row of the items join
(`SELECT oi.*, p.sku, p.name as product_name`), as the JSON object the
route caches.  The row's surrogate id and timestamp columns are not part
of the model. -/
def itemRowObj (oi : OrderItemRow) (p : Product) : Row :=
  [("order_id".data, .int oi.order_id),
   ("product_id".data, .int oi.product_id),
   ("quantity".data, .int oi.quantity),
   ("price".data, .str (decChars oi.price)),
   ("sku".data, .str p.sku.data),
   ("product_name".data, .str p.name.data)]

/-- The order object the route builds before caching it: the order row
joined with the user (timestamps not modelled) and, appended last as in
`order.items = itemsResult.rows`, the items array. -/
def orderToObj (oid : ℤ) (o : OrderRow) (u : User) (items : List Row) : Obj :=
  [("id".data, .scal (.int oid)),
   ("user_id".data, .scal (.int o.user_id)),
   ("status".data, .scal (.str o.status.data)),
   ("total_amount".data, .scal (.str (decChars o.total_amount))),
   ("payment_method".data, .scal (.str o.payment_method.data)),
   ("payment_status".data, .scal (.str o.payment_status.data)),
   ("email".data, .scal (.str u.email.data)),
   ("user_name".data, .scal (.str u.name.data)),
   ("items".data, .arr items)]

/-- Response of `GET /orders/:id`: the order object and the `cached`
flag. -/
structure GetResp where
  order : Obj
  cached : Bool
deriving DecidableEq

/-- The `GET /orders/:id` handler: try the cache (deserializing with
`JSON.parse`), else read the order joined with its user, join the items
with their products, cache the serialized object for 120 seconds (the
TTL does not affect values and is not modelled), and respond with the
`cached` flag. -/
def getOrderById (oid : ℤ) (st : Store) : (Except JsError GetResp) × Store :=
  match cacheGet (orderKey oid) st.cache with
  | some raw =>
      match parseObjTop raw with
      | some o => (.ok ⟨o, true⟩, st)
      | none => (.error badCacheErr, st)
  | none =>
      match lookupId oid st.orders with
      | none => (.error orderNotFoundErr, st)
      | some orow =>
          match lookupId orow.user_id st.users with
          | none => (.error orderNotFoundErr, st)
          | some u =>
              let items := st.orderItems.filterMap (fun oi =>
                if oi.order_id = oid then
                  (lookupId oi.product_id st.products).map (itemRowObj oi)
                else none)
              let obj := orderToObj oid orow u items
              (.ok ⟨obj, false⟩,
                { st with cache := cacheSet (orderKey oid) (objChars obj) st.cache })

theorem cacheGet_cacheSet (k : String) (v : List Char) (c : Cache) :
    cacheGet k (cacheSet k v c) = some v := by
  rw [cacheSet, cacheGet, if_pos rfl]

/-- C8: a fresh `GET /orders/:id` read that populated the cache is
reproduced exactly by the subsequent cached read: the deserialized cache
value is the very object that was read from the store, so the response
order is identical, only the `cached` flag differs, and the store is
unchanged. -/
theorem c8_cached_read_identical (oid : ℤ) (st : Store) (o : Obj) (st₂ : Store)
    (h : getOrderById oid st = (.ok ⟨o, false⟩, st₂)) :
    getOrderById oid st₂ = (.ok ⟨o, true⟩, st₂) := by
  rw [getOrderById] at h
  cases hcg : cacheGet (orderKey oid) st.cache with
  | some raw =>
    simp only [hcg] at h
    cases hp : parseObjTop raw with
    | some o₂ => simp only [hp] at h; simp at h
    | none => simp only [hp] at h; simp at h
  | none =>
    simp only [hcg] at h
    cases ho : lookupId oid st.orders with
    | none => simp only [ho] at h; simp at h
    | some orow =>
      simp only [ho] at h
      cases hu : lookupId orow.user_id st.users with
      | none => simp only [hu] at h; simp at h
      | some u =>
        simp only [hu, Prod.mk.injEq, Except.ok.injEq, GetResp.mk.injEq] at h
        obtain ⟨⟨ho₂, _⟩, hst⟩ := h
        subst ho₂
        subst hst
        rw [getOrderById]
        simp only [cacheGet_cacheSet, parseObjTop_objChars]

/-- Store of the C8 witness: the seeded store extended with one
confirmed order for user 1 and its single line item (the persisted
`total_amount` is the `DECIMAL(10, 2)` cell, here `1299.99`). -/
def wStoreOrder : Store :=
  { wStore with
      orders := [(1, ⟨1, "confirmed", priceLaptop, "credit_card", "completed"⟩)],
      orderItems := [⟨1, 1, 1, priceLaptop⟩],
      nextOrderId := 2 }

/-- The order object the fresh C8 witness read builds. -/
def wOrderObj : Obj :=
  orderToObj 1 ⟨1, "confirmed", priceLaptop, "credit_card", "completed"⟩
    ⟨"john@example.com", "John Doe"⟩
    [itemRowObj ⟨1, 1, 1, priceLaptop⟩ ⟨"LAPTOP-001", "Premium Laptop", priceLaptop, 50⟩]

/-- The C8 witness store after the fresh read populated the cache. -/
def wStoreCached : Store :=
  { wStoreOrder with
      cache := cacheSet (orderKey 1) (objChars wOrderObj) wStoreOrder.cache }

/-- C8 witness: on the concrete store the fresh read returns the order
object with `cached := false` and the repeated read returns the identical
object with `cached := true`. -/
theorem c8_witness :
    getOrderById 1 wStoreOrder = (.ok ⟨wOrderObj, false⟩, wStoreCached) ∧
    getOrderById 1 wStoreCached = (.ok ⟨wOrderObj, true⟩, wStoreCached) :=
  ⟨by decide, c8_cached_read_identical 1 wStoreOrder wOrderObj wStoreCached (by decide)⟩

end OtelShop
